import Mathlib

/-!
# stockrock: the data-refresh and caching core

A shallow embedding of `internal/service/stockticker.go` and
`internal/service/data.go`.

* `Decimal`, `NewFromString`, `Add`, `QuoRem`, `DivRound` follow the
  `shopspring/decimal` operations that `GetStockInfo` calls: a decimal is an
  unbounded integer coefficient with a base-ten exponent.
* `Time` is an instant in seconds since the Unix epoch with its `Location`;
  a `Location` is the table of offset transitions of a zone, `Date` follows
  `time.Date` through `Location.lookup`, and `ParseInLocation` follows
  `time.ParseInLocation` for the layout `"2006-01-02"`.
* a Go `map[string]Entry` is the list of its key/record pairs in the order the
  `range` loop enumerates them.
* `GetStockInfo` is a function of the service, the cache content and the
  answers of the environment during the call (clock readings, the upstream
  response, the time-zone database).
-/

namespace Stockrock

/-! ## Decimal arithmetic -/

/-- An arbitrary-precision decimal: the number `value * 10 ^ exp`. -/
structure Decimal where
  value : Int
  exp : Int
deriving DecidableEq, Repr

def MinInt32 : Int := -2147483648

def MaxInt32 : Int := 2147483647

def MinInt64 : Int := -9223372036854775808

def MaxInt64 : Int := 9223372036854775807

/-- Two's-complement wrap-around of `int32` arithmetic. -/
def wrapInt32 (x : Int) : Int := (x + 2147483648) % 4294967296 - 2147483648

def isDigit (c : Char) : Bool := decide ('0'.toNat ≤ c.toNat) && decide (c.toNat ≤ '9'.toNat)

def digitVal (c : Char) : Nat := c.toNat - '0'.toNat

/-- Base-ten value of a run of digits, most significant first, continuing
from the accumulator. Fails on any other character. -/
def parseDigits : Nat → List Char → Option Nat
  | acc, [] => some acc
  | acc, c :: cs => if isDigit c then parseDigits (acc * 10 + digitVal c) cs else none

/-- An optional sign followed by at least one digit, as `strconv.ParseInt`
in base ten and `big.Int.SetString` in base ten both read it (no range
check). -/
def parseInteger : List Char → Option Int
  | [] => none
  | '+' :: cs => if cs.isEmpty then none else (parseDigits 0 cs).map Int.ofNat
  | '-' :: cs => if cs.isEmpty then none else (parseDigits 0 cs).map (fun n => - Int.ofNat n)
  | cs => (parseDigits 0 cs).map Int.ofNat

/-- Go `strconv.ParseInt(s, 10, bitSize)`: the integer must fit in `bitSize`
bits. -/
def ParseInt (s : List Char) (bitSize : Nat) : Option Int :=
  match parseInteger s with
  | none => none
  | some n => if - 2 ^ (bitSize - 1) ≤ n ∧ n ≤ 2 ^ (bitSize - 1) - 1 then some n else none

/-- Go `strconv.Atoi`. -/
def Atoi (s : String) : Option Int := ParseInt s.toList 64

/-- Splits at the first `E` or `e` (`strings.IndexAny(value, "Ee")`): the
text before it and, when there is one, the text after it. -/
def splitExponent : List Char → List Char × Option (List Char)
  | [] => ([], none)
  | c :: cs =>
    if c = 'E' ∨ c = 'e' then ([], some cs)
    else
      let r := splitExponent cs
      (c :: r.1, r.2)

/-- Go `decimal.NewFromString`: `none` stands for a returned error. -/
def NewFromString (s : String) : Option Decimal :=
  let parts := splitExponent s.toList
  let expPart : Option Int :=
    match parts.2 with
    | none => some 0
    | some e => ParseInt e 32
  match expPart with
  | none => none
  | some exp0 =>
    let value := parts.1
    if 1 < value.count '.' then none
    else
      let intString := value.filter (fun c => c != '.')
      let exp : Int :=
        if value.contains '.' then exp0 - Int.ofNat ((value.dropWhile (fun c => c != '.')).length - 1)
        else exp0
      match parseInteger intString with
      | none => none
      | some dValue =>
        if exp < MinInt32 ∨ exp > MaxInt32 then none
        else some { value := dValue, exp := exp }

/-- Go `Decimal.rescale`, on the only path `RescalePair` takes: towards a
smaller or equal exponent, which multiplies the coefficient. The other path
divides, as in the library. -/
def Decimal.rescale (d : Decimal) (exp : Int) : Decimal :=
  if d.exp = exp then d
  else
    let diff := (exp - d.exp).natAbs
    if exp > d.exp then { value := d.value.tdiv (10 ^ diff), exp := exp }
    else { value := d.value * 10 ^ diff, exp := exp }

/-- Go `decimal.RescalePair`: brings both numbers to the smaller exponent. -/
def RescalePair (d1 d2 : Decimal) : Decimal × Decimal :=
  if d1.exp = d2.exp then (d1, d2)
  else
    let baseScale := min d1.exp d2.exp
    if baseScale ≠ d1.exp then (d1.rescale baseScale, d2)
    else (d1, d2.rescale baseScale)

/-- Go `Decimal.Add`. -/
def Decimal.Add (d d2 : Decimal) : Decimal :=
  let p := RescalePair d d2
  { value := p.1.value + p.2.value, exp := p.1.exp }

/-- Go `Decimal.Sub`. -/
def Decimal.Sub (d d2 : Decimal) : Decimal :=
  let p := RescalePair d d2
  { value := p.1.value - p.2.value, exp := p.1.exp }

/-- Go `Decimal.Abs`. -/
def Decimal.Abs (d : Decimal) : Decimal := { value := Int.ofNat d.value.natAbs, exp := d.exp }

/-- Go `Decimal.Cmp`: `-1`, `0` or `1`. -/
def Decimal.Cmp (d d2 : Decimal) : Int :=
  let p := RescalePair d d2
  if p.1.value < p.2.value then -1 else if p.1.value = p.2.value then 0 else 1

/-- Go `decimal.NewFromInt`. -/
def NewFromInt (n : Int) : Decimal := { value := n, exp := 0 }

/-- Go `decimal.New`. -/
def New (value exp : Int) : Decimal := { value := value, exp := exp }

/-- The zero value of `decimal.Decimal` (`var total decimal.Decimal`). -/
def Decimal.zero : Decimal := { value := 0, exp := 0 }

/-- Go `Decimal.QuoRem`: quotient with exponent `-precision` and remainder,
by truncated division. `none` stands for the panic on a zero divisor or on an
exponent out of range. -/
def Decimal.QuoRem (d d2 : Decimal) (precision : Int) : Option (Decimal × Decimal) :=
  if d2.value = 0 then none
  else
    let scale := - precision
    let e := wrapInt32 (wrapInt32 (d.exp - d2.exp) - scale)
    if e > MaxInt32 ∨ e < MinInt32 then none
    else if e < 0 then
      let aa := d.value
      let bb := d2.value * 10 ^ (-e).toNat
      some ({ value := aa.tdiv bb, exp := scale }, { value := aa.tmod bb, exp := d.exp })
    else
      let aa := d.value * 10 ^ e.toNat
      let bb := d2.value
      some ({ value := aa.tdiv bb, exp := scale },
        { value := aa.tmod bb, exp := wrapInt32 (scale + d2.exp) })

/-- Go `Decimal.DivRound`: divides and rounds to `precision` decimal places,
a remainder of half a unit or more moving the quotient away from zero. -/
def Decimal.DivRound (d d2 : Decimal) (precision : Int) : Option Decimal :=
  match d.QuoRem d2 precision with
  | none => none
  | some (q, r) =>
    let r2 : Decimal := { value := Int.ofNat r.value.natAbs * 2, exp := wrapInt32 (r.exp + precision) }
    let c := r2.Cmp d2.Abs
    if c < 0 then some q
    else if d.value.sign * d2.value.sign < 0 then some (q.Sub (New 1 (- precision)))
    else some (q.Add (New 1 (- precision)))

/-! ## Times, locations and the layout `2006-01-02` -/

/-- Go `time.zoneTrans`, with the offset of the zone it switches to: from the
instant `when` (seconds since the Unix epoch) on, local time is UTC plus
`offset` seconds. -/
structure zoneTrans where
  when : Int
  offset : Int
deriving DecidableEq, Repr

/-- Go `time.Location` as `time.LoadLocation` builds it from the time-zone
database: the name, the offset of the zone in use before the first transition
(`zone[lookupFirstZone()]`) and the transitions in increasing order of `when`,
those the rule string of the zone generates after the last stored one
included. -/
structure Location where
  name : String
  firstOffset : Int
  tx : List zoneTrans
deriving DecidableEq, Repr

/-- Go `time.utcLoc`. -/
def utcLoc : Location := { name := "UTC", firstOffset := 0, tx := [] }

/-- Go `time.alpha`, the start of time. -/
def alphaSec : Int := -9223372036854775808

/-- Go `time.omega`, the end of time. -/
def omegaSec : Int := 9223372036854775807

/-- The search of `Location.lookup` through the remaining transitions, `offset`
and `start` being those of the zone in use before them: the offset in use at
`sec` and the instants at which it starts and ends. -/
def lookupFrom (sec : Int) : Int → Int → List zoneTrans → Int × Int × Int
  | offset, start, [] => (offset, start, omegaSec)
  | offset, start, t :: rest =>
    if sec < t.when then (offset, start, t.when) else lookupFrom sec t.offset t.when rest

/-- Go `Location.lookup`: the offset in use at the instant `sec`, and the
start and end of the period in which it is in use. -/
def Location.lookup (l : Location) (sec : Int) : Int × Int × Int :=
  lookupFrom sec l.firstOffset alphaSec l.tx

/-- A `time.Time` without monotonic reading: seconds since the Unix epoch and
the location it is presented in. -/
structure Time where
  unix : Int
  loc : Location
deriving DecidableEq, Repr

/-- Go `Time.Before`: compares the instants. -/
def Time.Before (t u : Time) : Bool := decide (t.unix < u.unix)

/-- Go `time.isLeap`. -/
def isLeap (year : Nat) : Bool := year % 4 == 0 && (year % 100 != 0 || year % 400 == 0)

/-- Go `time.daysBefore`: days in a non-leap year before the month starts
(month counted from 1). -/
def daysBefore : Nat → Nat
  | 1 => 0
  | 2 => 31
  | 3 => 59
  | 4 => 90
  | 5 => 120
  | 6 => 151
  | 7 => 181
  | 8 => 212
  | 9 => 243
  | 10 => 273
  | 11 => 304
  | 12 => 334
  | _ => 365

/-- Go `time.daysIn`. -/
def daysIn (month year : Nat) : Nat :=
  if month = 2 ∧ isLeap year then 29 else daysBefore (month + 1) - daysBefore month

/-- Days from 0000-01-01 to January 1st of the year (proleptic Gregorian
calendar): 365 per year and one more for each leap year before it. -/
def daysBeforeYear (year : Nat) : Nat :=
  365 * year + (year + 3) / 4 - (year + 99) / 100 + (year + 399) / 400

/-- Days from 0000-01-01 to the date, as `time.Date` counts them: the days
before the year, before the month, one more from March of a leap year on, and
the days before today. -/
def daysSinceYearZero (year month day : Nat) : Nat :=
  daysBeforeYear year + daysBefore month + (if isLeap year ∧ 3 ≤ month then 1 else 0) + (day - 1)

/-- Go `time.Date(year, month, day, 0, 0, 0, 0, loc)`: midnight of the date
read as UTC (1970-01-01 is day 719528 from 0000-01-01), then moved by the
offset the location has there; when the instant so obtained falls outside the
period of that offset, by the offset the location has at that instant. -/
def Date (year month day : Nat) (loc : Location) : Time :=
  let unix : Int := (Int.ofNat (daysSinceYearZero year month day) - 719528) * 86400
  let found := loc.lookup unix
  let offset := found.1
  let start := found.2.1
  let stop := found.2.2
  if offset ≠ 0 then
    let utc := unix - offset
    if utc < start ∨ utc ≥ stop then { unix := unix - (loc.lookup utc).1, loc := loc }
    else { unix := unix - offset, loc := loc }
  else { unix := unix, loc := loc }

/-- Go `time.ParseInLocation("2006-01-02", value, loc)`: four digits of year,
a dash, two digits of month, a dash, two digits of day and nothing more; the
month is 1 to 12 and the day exists in that month. `none` stands for the
returned error. -/
def ParseInLocation (value : String) (loc : Location) : Option Time :=
  match value.toList with
  | [y1, y2, y3, y4, s1, m1, m2, s2, d1, d2] =>
    if isDigit y1 && isDigit y2 && isDigit y3 && isDigit y4 && s1 == '-' && isDigit m1 && isDigit m2
        && s2 == '-' && isDigit d1 && isDigit d2 then
      let year := digitVal y1 * 1000 + digitVal y2 * 100 + digitVal y3 * 10 + digitVal y4
      let month := digitVal m1 * 10 + digitVal m2
      let day := digitVal d1 * 10 + digitVal d2
      if month = 0 ∨ 12 < month then none
      else if day < 1 ∨ day > daysIn month year then none
      else some (Date year month day loc)
    else none
  | _ => none

/-! ## Data model (`data.go`) -/

structure Metadata where
  Information : String
  Symbol : String
  LastRefeshed : String
  OutputSize : String
  Timezone : String
deriving DecidableEq, Repr

structure Entry where
  Date : Time
  Open : String
  High : String
  Low : String
  Close : String
  Volume : String
deriving DecidableEq, Repr

/-- The upstream API response; `TimeSeries` is the Go map as the list of its
key/record pairs in enumeration order. -/
structure StockInfoResponse where
  Metadata : Metadata
  TimeSeries : List (String × Entry)
deriving DecidableEq, Repr

abbrev StockInfoTimeSeries := List Entry

/-- `StockInfoTimeSeries.Less` on the two elements it indexes. -/
def Less (a b : Entry) : Bool := a.Date.Before b.Date

structure ResponseEntry where
  Date : Time
  Open : String
  High : String
  Low : String
  Close : String
  Volume : String
deriving DecidableEq, Repr

/-- The Go conversion `ResponseEntry(entry)`. -/
def Entry.toResponseEntry (e : Entry) : ResponseEntry :=
  { Date := e.Date, Open := e.Open, High := e.High, Low := e.Low, Close := e.Close,
    Volume := e.Volume }

/-- The service response; `LastRefeshed` is a UTC instant in nanoseconds
since the Unix epoch. -/
structure StockTickerResponse where
  LastRefeshed : Int
  Days : Int
  Symbol : String
  AverageClosingPrice : Decimal
  StockTimeSeries : List ResponseEntry
deriving DecidableEq, Repr

/-! ## Normalisation (`getSortedTimeSeries`) -/

/-- The errors the service returns. -/
inductive Err where
  | upstream (msg : String)
  | invalidTimezone (timezone : String)
  | dateParse (dateString : String)
  | closeParse (close : String)
deriving DecidableEq, Repr

/-- Go `sort.Reverse`: `Less(i, j)` of the wrapper is `Less(j, i)` of the
data. -/
def Reverse {α : Type} (less : α → α → Bool) : α → α → Bool := fun a b => less b a

/-- Inner loop of the library's insertion sort, `for j := i; j > a &&
data.Less(j, j-1); j-- { data.Swap(j, j-1) }`: the new element `x` moves
towards the front while it is less than its predecessor. The sorted prefix is
passed, and returned, last element first. -/
def sink {α : Type} (less : α → α → Bool) (x : α) : List α → List α
  | [] => [x]
  | y :: ys => if less x y then y :: sink less x ys else x :: y :: ys

/-- Go `sort.Sort`, as the insertion sort the library runs on short slices
(`for i := a + 1; i < b; i++`, then the inner loop `sink`). On elements that
`less` orders strictly, every correct sort returns this same sequence. -/
def sortSort {α : Type} (less : α → α → Bool) (data : List α) : List α :=
  (data.foldl (fun sortedRev x => sink less x sortedRev) []).reverse

/-- The `range` loop of `getSortedTimeSeries` over the remaining pairs of the
map, `ts` holding the entries appended so far. -/
def parseLoop (loc : Location) : List (String × Entry) → List Entry → Except Err (List Entry)
  | [], ts => .ok ts
  | (dateString, data) :: rest, ts =>
    match ParseInLocation dateString loc with
    | none => .error (.dateParse dateString)
    | some date => parseLoop loc rest (ts ++ [{ data with Date := date }])

/-- Go `getSortedTimeSeries`: the returned slice and the returned error.
`LoadLocation` is the time-zone database (`time.LoadLocation`). -/
def getSortedTimeSeries (LoadLocation : String → Option Location)
    (timeseries : List (String × Entry)) (timezone : String) :
    StockInfoTimeSeries × Option Err :=
  match LoadLocation timezone with
  | none => ([], some (.invalidTimezone timezone))
  | some loc =>
    match parseLoop loc timeseries [] with
    | .error err => ([], some err)
    | .ok ts => (sortSort (Reverse Less) ts, none)

/-! ## The service (`GetStockInfo`) -/

/-- The service; `cache` is the content of the map under its only key,
`cacheKey`. -/
structure StockTickerService where
  apiKey : String
  ndays : Int
  symbol : String
  cache : Option StockTickerResponse
deriving DecidableEq, Repr

/-- Go `NewStockTickerService`. -/
def NewStockTickerService (apiKey : String) (ndays : Int) (symbol : String) :
    StockTickerService :=
  { apiKey := apiKey, ndays := ndays, symbol := symbol, cache := none }

/-- What the environment answers during one call of `GetStockInfo`: the clock
read by `time.Since` (nanoseconds since the Unix epoch), the result of
`retrieveStockInfo`, the time-zone database, and the clock read by
`time.Now()` when the response is built. -/
structure World where
  sinceNow : Int
  retrieveStockInfo : Except String StockInfoResponse
  LoadLocation : String → Option Location
  now : Int

/-- Go `Time.Sub`, a `Duration` in nanoseconds: the difference, saturated to
the range of `int64`. -/
def Sub (t u : Int) : Int := max MinInt64 (min MaxInt64 (t - u))

/-- How a call ends: a response with a nil error, a nil response with an
error, or a run-time panic. -/
inductive Outcome where
  | ok (resp : StockTickerResponse)
  | error (err : Err)
  | panic (msg : String)
deriving DecidableEq, Repr

/-- A finished call: how it ended, the service after it, and how many times
`retrieveStockInfo` was called. -/
structure CallResult where
  outcome : Outcome
  svc : StockTickerService
  upstreamCalls : Nat
deriving DecidableEq, Repr

/-- The loop `for _, entry := range ts[:svc.ndays]` over the remaining
entries of the window. -/
def windowLoop : List Entry → List ResponseEntry → Decimal →
    Except Err (List ResponseEntry × Decimal)
  | [], series, total => .ok (series, total)
  | entry :: rest, series, total =>
    match NewFromString entry.Close with
    | none => .error (.closeParse entry.Close)
    | some closePrice => windowLoop rest (series ++ [entry.toResponseEntry]) (total.Add closePrice)

/-- The cache test of `GetStockInfo`: the stored response when it is less
than 600 seconds old. `age.Seconds() < 600` on the float64 of a whole number
of nanoseconds holds exactly when the duration is below 600e9 ns. -/
def cacheLookup (svc : StockTickerService) (w : World) : Option StockTickerResponse :=
  match svc.cache with
  | none => none
  | some cachedResp => if Sub w.sinceNow cachedResp.LastRefeshed < 600 * 1000000000 then
      some cachedResp else none

/-- The refresh path of `GetStockInfo`, from `retrieveStockInfo` on. -/
def refresh (svc : StockTickerService) (w : World) : CallResult :=
  match w.retrieveStockInfo with
  | .error msg => { outcome := .error (.upstream msg), svc := svc, upstreamCalls := 1 }
  | .ok resp =>
    match getSortedTimeSeries w.LoadLocation resp.TimeSeries resp.Metadata.Timezone with
    | (_, some err) => { outcome := .error err, svc := svc, upstreamCalls := 1 }
    | (ts, none) =>
      if svc.ndays < 0 ∨ svc.ndays > Int.ofNat ts.length then
        { outcome := .panic "slice bounds out of range", svc := svc, upstreamCalls := 1 }
      else
        match windowLoop (ts.take svc.ndays.toNat) [] Decimal.zero with
        | .error err => { outcome := .error err, svc := svc, upstreamCalls := 1 }
        | .ok (series, total) =>
          match total.DivRound (NewFromInt svc.ndays) 2 with
          | none => { outcome := .panic "decimal division by 0", svc := svc, upstreamCalls := 1 }
          | some average =>
            let result : StockTickerResponse :=
              { LastRefeshed := w.now, Days := svc.ndays, Symbol := svc.symbol,
                AverageClosingPrice := average, StockTimeSeries := series }
            { outcome := .ok result, svc := { svc with cache := some result }, upstreamCalls := 1 }

/-- Go `StockTickerService.GetStockInfo`. -/
def GetStockInfo (svc : StockTickerService) (w : World) : CallResult :=
  match cacheLookup svc w with
  | some cachedResp => { outcome := .ok cachedResp, svc := svc, upstreamCalls := 0 }
  | none => refresh svc w

/-! ## Configuration (`parseEnv`) -/

structure configFromEnv where
  host : String
  port : Int
  apiKey : String
  ndays : Int
  symbol : String
deriving DecidableEq, Repr

/-- Go `parseEnv`; `LookupEnv` is the process environment. -/
def parseEnv (LookupEnv : String → Option String) : Except String configFromEnv :=
  let host := (LookupEnv "HOST").getD "localhost"
  match (match LookupEnv "PORT" with
    | none => some 8080
    | some port => Atoi port) with
  | none => .error "error converting PORT to an integer"
  | some port =>
    match LookupEnv "API_KEY" with
    | none => .error "API_KEY environment variable is required and not found"
    | some apiKey =>
      match LookupEnv "NDAYS" with
      | none => .error "NDAYS environment variable is required and not found"
      | some ndaysText =>
        match Atoi ndaysText with
        | none => .error "NDAYS not an integer or is less than 1"
        | some ndays =>
          if ndays < 1 then .error "NDAYS not an integer or is less than 1"
          else
            match LookupEnv "SYMBOL" with
            | none => .error "SYMBOL environment variable is required and not found"
            | some symbol =>
              .ok { host := host, port := port, apiKey := apiKey, ndays := ndays, symbol := symbol }

/-! ## Sample inputs -/

/-- The transitions of US/Eastern in the time-zone database (2024a). -/
def usEastern : Location :=
  { name := "US/Eastern", firstOffset := -17762, tx :=
  [zoneTrans.mk (-2717650800) (-18000), zoneTrans.mk (-1633280400) (-14400),
     zoneTrans.mk (-1615140000) (-18000), zoneTrans.mk (-1601830800) (-14400),
     zoneTrans.mk (-1583690400) (-18000), zoneTrans.mk (-1570381200) (-14400),
     zoneTrans.mk (-1551636000) (-18000), zoneTrans.mk (-1536512400) (-14400),
     zoneTrans.mk (-1523210400) (-18000), zoneTrans.mk (-1504458000) (-14400),
     zoneTrans.mk (-1491760800) (-18000), zoneTrans.mk (-1473008400) (-14400),
     zoneTrans.mk (-1459706400) (-18000), zoneTrans.mk (-1441558800) (-14400),
     zoneTrans.mk (-1428256800) (-18000), zoneTrans.mk (-1410109200) (-14400),
     zoneTrans.mk (-1396807200) (-18000), zoneTrans.mk (-1378659600) (-14400),
     zoneTrans.mk (-1365357600) (-18000), zoneTrans.mk (-1347210000) (-14400),
     zoneTrans.mk (-1333908000) (-18000), zoneTrans.mk (-1315155600) (-14400),
     zoneTrans.mk (-1301853600) (-18000), zoneTrans.mk (-1283706000) (-14400),
     zoneTrans.mk (-1270404000) (-18000), zoneTrans.mk (-1252256400) (-14400),
     zoneTrans.mk (-1238954400) (-18000), zoneTrans.mk (-1220806800) (-14400),
     zoneTrans.mk (-1207504800) (-18000), zoneTrans.mk (-1189357200) (-14400),
     zoneTrans.mk (-1176055200) (-18000), zoneTrans.mk (-1157302800) (-14400),
     zoneTrans.mk (-1144605600) (-18000), zoneTrans.mk (-1125853200) (-14400),
     zoneTrans.mk (-1112551200) (-18000), zoneTrans.mk (-1094403600) (-14400),
     zoneTrans.mk (-1081101600) (-18000), zoneTrans.mk (-1062954000) (-14400),
     zoneTrans.mk (-1049652000) (-18000), zoneTrans.mk (-1031504400) (-14400),
     zoneTrans.mk (-1018202400) (-18000), zoneTrans.mk (-1000054800) (-14400),
     zoneTrans.mk (-986752800) (-18000), zoneTrans.mk (-968000400) (-14400),
     zoneTrans.mk (-955303200) (-18000), zoneTrans.mk (-936550800) (-14400),
     zoneTrans.mk (-923248800) (-18000), zoneTrans.mk (-905101200) (-14400),
     zoneTrans.mk (-891799200) (-18000), zoneTrans.mk (-880218000) (-14400),
     zoneTrans.mk (-769395600) (-14400), zoneTrans.mk (-765396000) (-18000),
     zoneTrans.mk (-747248400) (-14400), zoneTrans.mk (-733946400) (-18000),
     zoneTrans.mk (-715798800) (-14400), zoneTrans.mk (-702496800) (-18000),
     zoneTrans.mk (-684349200) (-14400), zoneTrans.mk (-671047200) (-18000),
     zoneTrans.mk (-652899600) (-14400), zoneTrans.mk (-639597600) (-18000),
     zoneTrans.mk (-620845200) (-14400), zoneTrans.mk (-608148000) (-18000),
     zoneTrans.mk (-589395600) (-14400), zoneTrans.mk (-576093600) (-18000),
     zoneTrans.mk (-557946000) (-14400), zoneTrans.mk (-544644000) (-18000),
     zoneTrans.mk (-526496400) (-14400), zoneTrans.mk (-513194400) (-18000),
     zoneTrans.mk (-495046800) (-14400), zoneTrans.mk (-481744800) (-18000),
     zoneTrans.mk (-463597200) (-14400), zoneTrans.mk (-447271200) (-18000),
     zoneTrans.mk (-431542800) (-14400), zoneTrans.mk (-415821600) (-18000),
     zoneTrans.mk (-400093200) (-14400), zoneTrans.mk (-384372000) (-18000),
     zoneTrans.mk (-368643600) (-14400), zoneTrans.mk (-352922400) (-18000),
     zoneTrans.mk (-337194000) (-14400), zoneTrans.mk (-321472800) (-18000),
     zoneTrans.mk (-305744400) (-14400), zoneTrans.mk (-289418400) (-18000),
     zoneTrans.mk (-273690000) (-14400), zoneTrans.mk (-257968800) (-18000),
     zoneTrans.mk (-242240400) (-14400), zoneTrans.mk (-226519200) (-18000),
     zoneTrans.mk (-210790800) (-14400), zoneTrans.mk (-195069600) (-18000),
     zoneTrans.mk (-179341200) (-14400), zoneTrans.mk (-163620000) (-18000),
     zoneTrans.mk (-147891600) (-14400), zoneTrans.mk (-131565600) (-18000),
     zoneTrans.mk (-116442000) (-14400), zoneTrans.mk (-100116000) (-18000),
     zoneTrans.mk (-84387600) (-14400), zoneTrans.mk (-68666400) (-18000),
     zoneTrans.mk (-52938000) (-14400), zoneTrans.mk (-37216800) (-18000),
     zoneTrans.mk (-21488400) (-14400), zoneTrans.mk (-5767200) (-18000),
     zoneTrans.mk 9961200 (-14400), zoneTrans.mk 25682400 (-18000),
     zoneTrans.mk 41410800 (-14400), zoneTrans.mk 57736800 (-18000),
     zoneTrans.mk 73465200 (-14400), zoneTrans.mk 89186400 (-18000),
     zoneTrans.mk 104914800 (-14400), zoneTrans.mk 120636000 (-18000),
     zoneTrans.mk 126687600 (-14400), zoneTrans.mk 152085600 (-18000),
     zoneTrans.mk 162370800 (-14400), zoneTrans.mk 183535200 (-18000),
     zoneTrans.mk 199263600 (-14400), zoneTrans.mk 215589600 (-18000),
     zoneTrans.mk 230713200 (-14400), zoneTrans.mk 247039200 (-18000),
     zoneTrans.mk 262767600 (-14400), zoneTrans.mk 278488800 (-18000),
     zoneTrans.mk 294217200 (-14400), zoneTrans.mk 309938400 (-18000),
     zoneTrans.mk 325666800 (-14400), zoneTrans.mk 341388000 (-18000),
     zoneTrans.mk 357116400 (-14400), zoneTrans.mk 372837600 (-18000),
     zoneTrans.mk 388566000 (-14400), zoneTrans.mk 404892000 (-18000),
     zoneTrans.mk 420015600 (-14400), zoneTrans.mk 436341600 (-18000),
     zoneTrans.mk 452070000 (-14400), zoneTrans.mk 467791200 (-18000),
     zoneTrans.mk 483519600 (-14400), zoneTrans.mk 499240800 (-18000),
     zoneTrans.mk 514969200 (-14400), zoneTrans.mk 530690400 (-18000),
     zoneTrans.mk 544604400 (-14400), zoneTrans.mk 562140000 (-18000),
     zoneTrans.mk 576054000 (-14400), zoneTrans.mk 594194400 (-18000),
     zoneTrans.mk 607503600 (-14400), zoneTrans.mk 625644000 (-18000),
     zoneTrans.mk 638953200 (-14400), zoneTrans.mk 657093600 (-18000),
     zoneTrans.mk 671007600 (-14400), zoneTrans.mk 688543200 (-18000),
     zoneTrans.mk 702457200 (-14400), zoneTrans.mk 719992800 (-18000),
     zoneTrans.mk 733906800 (-14400), zoneTrans.mk 752047200 (-18000),
     zoneTrans.mk 765356400 (-14400), zoneTrans.mk 783496800 (-18000),
     zoneTrans.mk 796806000 (-14400), zoneTrans.mk 814946400 (-18000),
     zoneTrans.mk 828860400 (-14400), zoneTrans.mk 846396000 (-18000),
     zoneTrans.mk 860310000 (-14400), zoneTrans.mk 877845600 (-18000),
     zoneTrans.mk 891759600 (-14400), zoneTrans.mk 909295200 (-18000),
     zoneTrans.mk 923209200 (-14400), zoneTrans.mk 941349600 (-18000),
     zoneTrans.mk 954658800 (-14400), zoneTrans.mk 972799200 (-18000),
     zoneTrans.mk 986108400 (-14400), zoneTrans.mk 1004248800 (-18000),
     zoneTrans.mk 1018162800 (-14400), zoneTrans.mk 1035698400 (-18000),
     zoneTrans.mk 1049612400 (-14400), zoneTrans.mk 1067148000 (-18000),
     zoneTrans.mk 1081062000 (-14400), zoneTrans.mk 1099202400 (-18000),
     zoneTrans.mk 1112511600 (-14400), zoneTrans.mk 1130652000 (-18000),
     zoneTrans.mk 1143961200 (-14400), zoneTrans.mk 1162101600 (-18000),
     zoneTrans.mk 1173596400 (-14400), zoneTrans.mk 1194156000 (-18000),
     zoneTrans.mk 1205046000 (-14400), zoneTrans.mk 1225605600 (-18000),
     zoneTrans.mk 1236495600 (-14400), zoneTrans.mk 1257055200 (-18000),
     zoneTrans.mk 1268550000 (-14400), zoneTrans.mk 1289109600 (-18000),
     zoneTrans.mk 1299999600 (-14400), zoneTrans.mk 1320559200 (-18000),
     zoneTrans.mk 1331449200 (-14400), zoneTrans.mk 1352008800 (-18000),
     zoneTrans.mk 1362898800 (-14400), zoneTrans.mk 1383458400 (-18000),
     zoneTrans.mk 1394348400 (-14400), zoneTrans.mk 1414908000 (-18000),
     zoneTrans.mk 1425798000 (-14400), zoneTrans.mk 1446357600 (-18000),
     zoneTrans.mk 1457852400 (-14400), zoneTrans.mk 1478412000 (-18000),
     zoneTrans.mk 1489302000 (-14400), zoneTrans.mk 1509861600 (-18000),
     zoneTrans.mk 1520751600 (-14400), zoneTrans.mk 1541311200 (-18000),
     zoneTrans.mk 1552201200 (-14400), zoneTrans.mk 1572760800 (-18000),
     zoneTrans.mk 1583650800 (-14400), zoneTrans.mk 1604210400 (-18000),
     zoneTrans.mk 1615705200 (-14400), zoneTrans.mk 1636264800 (-18000),
     zoneTrans.mk 1647154800 (-14400), zoneTrans.mk 1667714400 (-18000),
     zoneTrans.mk 1678604400 (-14400), zoneTrans.mk 1699164000 (-18000),
     zoneTrans.mk 1710054000 (-14400), zoneTrans.mk 1730613600 (-18000),
     zoneTrans.mk 1741503600 (-14400), zoneTrans.mk 1762063200 (-18000),
     zoneTrans.mk 1772953200 (-14400), zoneTrans.mk 1793512800 (-18000),
     zoneTrans.mk 1805007600 (-14400), zoneTrans.mk 1825567200 (-18000),
     zoneTrans.mk 1836457200 (-14400), zoneTrans.mk 1857016800 (-18000),
     zoneTrans.mk 1867906800 (-14400), zoneTrans.mk 1888466400 (-18000),
     zoneTrans.mk 1899356400 (-14400), zoneTrans.mk 1919916000 (-18000),
     zoneTrans.mk 1930806000 (-14400), zoneTrans.mk 1951365600 (-18000),
     zoneTrans.mk 1962860400 (-14400), zoneTrans.mk 1983420000 (-18000),
     zoneTrans.mk 1994310000 (-14400), zoneTrans.mk 2014869600 (-18000),
     zoneTrans.mk 2025759600 (-14400), zoneTrans.mk 2046319200 (-18000),
     zoneTrans.mk 2057209200 (-14400), zoneTrans.mk 2077768800 (-18000),
     zoneTrans.mk 2088658800 (-14400), zoneTrans.mk 2109218400 (-18000),
     zoneTrans.mk 2120108400 (-14400), zoneTrans.mk 2140668000 (-18000)] }

/-- The transitions of Pacific/Apia in the time-zone database (2024a): at
2011-12-30T10:00:00Z the zone moves from UTC-10 to UTC+14, so that no
2011-12-30 exists there. -/
def pacificApia : Location :=
  { name := "Pacific/Apia", firstOffset := 45184, tx :=
  [zoneTrans.mk (-2445424384) (-41216), zoneTrans.mk (-1861878784) (-41400),
     zoneTrans.mk (-631110600) (-39600), zoneTrans.mk 1285498800 (-36000),
     zoneTrans.mk 1301752800 (-39600), zoneTrans.mk 1316872800 (-36000),
     zoneTrans.mk 1325239200 50400, zoneTrans.mk 1333202400 46800, zoneTrans.mk 1348927200 50400,
     zoneTrans.mk 1365256800 46800, zoneTrans.mk 1380376800 50400, zoneTrans.mk 1396706400 46800,
     zoneTrans.mk 1411826400 50400, zoneTrans.mk 1428156000 46800, zoneTrans.mk 1443276000 50400,
     zoneTrans.mk 1459605600 46800, zoneTrans.mk 1474725600 50400, zoneTrans.mk 1491055200 46800,
     zoneTrans.mk 1506175200 50400, zoneTrans.mk 1522504800 46800, zoneTrans.mk 1538229600 50400,
     zoneTrans.mk 1554559200 46800, zoneTrans.mk 1569679200 50400, zoneTrans.mk 1586008800 46800,
     zoneTrans.mk 1601128800 50400, zoneTrans.mk 1617458400 46800, zoneTrans.mk 2147483647 46800] }

/-- A time-zone database with three zones. -/
def tzdb : String → Option Location := fun name =>
  if name = "UTC" then some utcLoc
  else if name = "US/Eastern" then some usEastern
  else if name = "Pacific/Apia" then some pacificApia
  else none

def zeroTime : Time := { unix := -62135596800, loc := utcLoc }

def mkEntry (close : String) : Entry :=
  { Date := zeroTime, Open := "1.0", High := "9.0", Low := "0.5", Close := close, Volume := "100" }

def metadataOf (timezone : String) : Metadata :=
  { Information := "Daily", Symbol := "ABC", LastRefeshed := "2024-01-05", OutputSize := "Compact",
    Timezone := timezone }

/-- Dates 2024-01-01 to 2024-01-05 with closes 1 to 5, in an enumeration
order that is neither ascending nor descending. -/
def fiveDays : List (String × Entry) :=
  [("2024-01-03", mkEntry "3"), ("2024-01-05", mkEntry "5"), ("2024-01-01", mkEntry "1"),
   ("2024-01-04", mkEntry "4"), ("2024-01-02", mkEntry "2")]

def worldOf (timeseries : List (String × Entry)) (timezone : String) (t : Int) : World :=
  { sinceNow := t, retrieveStockInfo := .ok { Metadata := metadataOf timezone, TimeSeries := timeseries },
    LoadLocation := tzdb, now := t + 1000000 }

/-- A snapshot refreshed at 1704499000 s, for the sample service. -/
def oldSnapshot : StockTickerResponse :=
  { LastRefeshed := 1704499000000000000, Days := 3, Symbol := "ABC",
    AverageClosingPrice := { value := 250, exp := -2 }, StockTimeSeries := [] }

def mkResponseEntry (unix : Int) (close : String) : ResponseEntry :=
  { Date := { unix := unix, loc := usEastern }, Open := "1.0",
    High := "9.0", Low := "0.5", Close := close, Volume := "100" }

/-- The snapshot of `fiveDays` for a window of 3, refreshed at
1704500000.001 s: the entries of January 5th, 4th and 3rd (midnight in
US/Eastern) and the average 4.00. -/
def abcSnapshot : StockTickerResponse :=
  { LastRefeshed := 1704500000001000000, Days := 3, Symbol := "ABC",
    AverageClosingPrice := { value := 400, exp := -2 },
    StockTimeSeries := [mkResponseEntry 1704430800 "5", mkResponseEntry 1704344400 "4",
      mkResponseEntry 1704258000 "3"] }

/-- Two dates only. -/
def twoDays : List (String × Entry) :=
  [("2024-01-04", mkEntry "10.01"), ("2024-01-05", mkEntry "10.02")]

/-- Five dates of which the two oldest carry a close price that is not a
decimal. -/
def fiveDaysOldBad : List (String × Entry) :=
  [("2024-01-03", mkEntry "3"), ("2024-01-05", mkEntry "5"), ("2024-01-01", mkEntry "n/a"),
   ("2024-01-04", mkEntry "4"), ("2024-01-02", mkEntry "")]

/-- Dates 2024-01-03 to 2024-01-05 with closes 10.00, 20.00 and 30.00. -/
def threeDays : List (String × Entry) :=
  [("2024-01-04", mkEntry "20.00"), ("2024-01-03", mkEntry "10.00"),
   ("2024-01-05", mkEntry "30.00")]

def threeSnapshot : StockTickerResponse :=
  { LastRefeshed := 1704500000001000000, Days := 3, Symbol := "ABC",
    AverageClosingPrice := { value := 2000, exp := -2 },
    StockTimeSeries := [mkResponseEntry 1704430800 "30.00", mkResponseEntry 1704344400 "20.00",
      mkResponseEntry 1704258000 "10.00"] }

def twoSnapshot : StockTickerResponse :=
  { LastRefeshed := 1704500000001000000, Days := 2, Symbol := "ABC",
    AverageClosingPrice := { value := 1002, exp := -2 },
    StockTimeSeries := [mkResponseEntry 1704430800 "10.02", mkResponseEntry 1704344400 "10.01"] }

/-- Two consecutive dates around the day Pacific/Apia skipped. -/
def apiaDays : List (String × Entry) :=
  [("2011-12-29", mkEntry "29.00"), ("2011-12-30", mkEntry "30.00")]

/-- The same two dates, the older one with a close price that is not a
decimal. -/
def apiaOldBad : List (String × Entry) :=
  [("2011-12-29", mkEntry "n/a"), ("2011-12-30", mkEntry "5")]

/-- The snapshot `GetStockInfo` builds from `apiaDays` in Pacific/Apia for a
window of 1: the record of 2011-12-29. -/
def apiaSnapshot : StockTickerResponse :=
  { LastRefeshed := 1704500000001000000, Days := 1, Symbol := "ABC",
    AverageClosingPrice := { value := 2900, exp := -2 },
    StockTimeSeries :=
      [{ mkResponseEntry 1325152800 "29.00" with
          Date := { unix := 1325152800, loc := pacificApia } }] }

/-! ## Specification-side definitions -/

/-- The condition of a cache hit in the words of the specification: a snapshot
exists and `now - snapshot.refreshedAt < 600 s` (in nanoseconds). -/
def CacheHit (svc : StockTickerService) (w : World) : Prop :=
  match svc.cache with
  | none => False
  | some snapshot => w.sinceNow - snapshot.LastRefeshed < 600 * 1000000000

instance (svc : StockTickerService) (w : World) : Decidable (CacheHit svc w) := by
  unfold CacheHit
  split <;> infer_instance

/-- The entry the loop of `getSortedTimeSeries` appends for one pair of the
map whose key parses. -/
def datedEntry (loc : Location) (kv : String × Entry) : Entry :=
  { kv.2 with Date := (ParseInLocation kv.1 loc).getD zeroTime }

/-- A key of the upstream mapping is a valid `YYYY-MM-DD` date: the layout
`2006-01-02` parses it. -/
def ValidDate (key : String) : Prop :=
  (ParseInLocation key utcLoc).isSome = true

instance (key : String) : Decidable (ValidDate key) := by
  unfold ValidDate
  infer_instance

/-- The keys of the mapping resolve, in the location, to pairwise distinct
instants. -/
def ResolvesDistinct (loc : Location) (timeseries : List (String × Entry)) : Prop :=
  ((timeseries.map (datedEntry loc)).map (fun e => e.Date.unix)).Nodup

instance (loc : Location) (timeseries : List (String × Entry)) :
    Decidable (ResolvesDistinct loc timeseries) := by
  unfold ResolvesDistinct
  infer_instance

/-- The UTC offsets a location uses. -/
def Location.offsets (l : Location) : List Int := l.firstOffset :: l.tx.map (fun t => t.offset)

/-- The offsets of the location lie within less than a day of each other. -/
def NarrowOffsets (l : Location) : Prop := ∀ a ∈ l.offsets, ∀ b ∈ l.offsets, a - b < 86400

instance (l : Location) : Decidable (NarrowOffsets l) := by
  unfold NarrowOffsets
  infer_instance

/-- The calendar date of a key, as the instant of its midnight in UTC. -/
def calendarDate (key : String) : Int := ((ParseInLocation key utcLoc).getD zeroTime).unix

/-- The number of pairs of the mapping whose key is a later calendar date than
the key of `kv`. -/
def laterDateCount (timeseries : List (String × Entry)) (kv : String × Entry) : Nat :=
  timeseries.countP (fun kv' => decide (calendarDate kv.1 < calendarDate kv'.1))

/-- The close price of an entry as the loop adds it to the total. -/
def closeOf (e : Entry) : Decimal := (NewFromString e.Close).getD Decimal.zero

/-- The total of the loop of `GetStockInfo` over a window: the close prices
added one by one to the zero value. -/
def totalOf (window : List Entry) : Decimal :=
  window.foldl (fun total e => total.Add (closeOf e)) Decimal.zero

/-- The response a refresh builds from the normalised series `ts`. -/
def snapshotOf (svc : StockTickerService) (w : World) (ts : List Entry) (average : Decimal) :
    StockTickerResponse :=
  { LastRefeshed := w.now, Days := svc.ndays, Symbol := svc.symbol,
    AverageClosingPrice := average,
    StockTimeSeries := (ts.take svc.ndays.toNat).map Entry.toResponseEntry }

/-- The number of pairs of the mapping whose date, as resolved in the location,
is after the date of `kv`. -/
def newerCount (loc : Location) (timeseries : List (String × Entry)) (kv : String × Entry) : Nat :=
  timeseries.countP
    (fun kv' => decide ((datedEntry loc kv).Date.unix < (datedEntry loc kv').Date.unix))

/-- The rational number a decimal stands for. -/
def Decimal.toRat (d : Decimal) : ℚ := (d.value : ℚ) * (10 : ℚ) ^ d.exp

/-- Rounding to the nearest integer, half a unit rounding up in magnitude
(away from zero): the round-half-up of decimal arithmetic. -/
def roundHalfUp (q : ℚ) : Int := if 0 ≤ q then ⌊q + 1 / 2⌋ else -⌊-q + 1 / 2⌋

/-- The number a close-price string stands for, as `NewFromString` reads it. -/
def closeValue (close : String) : ℚ := ((NewFromString close).getD Decimal.zero).toRat

/-- The integer computation of `DivRound`: truncated quotient, moved one unit
away from zero when twice the remainder reaches the divisor. -/
def roundDiv (aa bb : Int) (negative : Bool) : Int :=
  if Int.ofNat (aa.tmod bb).natAbs * 2 < bb then aa.tdiv bb
  else if negative then aa.tdiv bb - 1 else aa.tdiv bb + 1

/-! ## The sort -/

set_option maxRecDepth 100000

theorem sink_perm {α : Type} (less : α → α → Bool) (x : α) (l : List α) :
    (sink less x l).Perm (x :: l) := by
  induction l with
  | nil => simp [sink]
  | cons y ys ih =>
    unfold sink
    split
    · exact (List.Perm.cons y ih).trans (List.Perm.swap x y ys)
    · exact List.Perm.refl _

theorem foldl_sink_perm {α : Type} (less : α → α → Bool) (data acc : List α) :
    (data.foldl (fun sortedRev x => sink less x sortedRev) acc).Perm (data ++ acc) := by
  induction data generalizing acc with
  | nil => simp
  | cons x xs ih =>
    simp only [List.foldl_cons, List.cons_append]
    exact (ih _).trans ((List.Perm.append_left xs (sink_perm less x acc)).trans
      List.perm_middle)

theorem sortSort_perm {α : Type} (less : α → α → Bool) (data : List α) :
    (sortSort less data).Perm data := by
  unfold sortSort
  have h := foldl_sink_perm less data []
  simp only [List.append_nil] at h
  exact (List.reverse_perm _).trans h

theorem sink_ascending (x : Entry) (l : List Entry)
    (h : l.Pairwise (fun a b => a.Date.unix ≤ b.Date.unix)) :
    (sink (Reverse Less) x l).Pairwise (fun a b => a.Date.unix ≤ b.Date.unix) := by
  induction l with
  | nil => simp [sink]
  | cons y ys ih =>
    rw [List.pairwise_cons] at h
    unfold sink
    split
    · rename_i hlt
      simp only [Reverse, Less, Time.Before, decide_eq_true_eq] at hlt
      rw [List.pairwise_cons]
      refine ⟨?_, ih h.2⟩
      intro b hb
      rcases List.mem_cons.mp ((sink_perm (Reverse Less) x ys).mem_iff.mp hb) with h1 | h1
      · rw [h1]; exact le_of_lt hlt
      · exact h.1 b h1
    · rename_i hlt
      simp only [Reverse, Less, Time.Before, decide_eq_true_eq, not_lt] at hlt
      rw [List.pairwise_cons]
      refine ⟨?_, List.pairwise_cons.mpr h⟩
      intro b hb
      rcases List.mem_cons.mp hb with h1 | h1
      · rw [h1]; exact hlt
      · exact le_trans hlt (h.1 b h1)

theorem foldl_sink_ascending (data acc : List Entry)
    (h : acc.Pairwise (fun a b => a.Date.unix ≤ b.Date.unix)) :
    (data.foldl (fun sortedRev x => sink (Reverse Less) x sortedRev) acc).Pairwise
      (fun a b => a.Date.unix ≤ b.Date.unix) := by
  induction data generalizing acc with
  | nil => simpa using h
  | cons x xs ih => exact ih _ (sink_ascending x acc h)

theorem sortSort_descending (data : List Entry) :
    (sortSort (Reverse Less) data).Pairwise (fun a b => b.Date.unix ≤ a.Date.unix) := by
  unfold sortSort
  rw [List.pairwise_reverse]
  exact foldl_sink_ascending data [] List.Pairwise.nil

theorem sortSort_strict (data : List Entry) (hnd : (data.map (fun e => e.Date.unix)).Nodup) :
    (sortSort (Reverse Less) data).Pairwise (fun a b => b.Date.unix < a.Date.unix) := by
  have hperm := sortSort_perm (Reverse Less) data
  have hnd2 : ((sortSort (Reverse Less) data).map (fun e => e.Date.unix)).Nodup :=
    ((hperm.map _).nodup_iff).mpr hnd
  rw [List.Nodup, List.pairwise_map] at hnd2
  exact ((sortSort_descending data).and hnd2).imp (fun h => lt_of_le_of_ne h.1 (Ne.symm h.2))

theorem sortSort_eq_of_perm (l₁ l₂ : List Entry) (hp : l₁.Perm l₂)
    (hnd : (l₁.map (fun e => e.Date.unix)).Nodup) :
    sortSort (Reverse Less) l₁ = sortSort (Reverse Less) l₂ := by
  have h1 := sortSort_strict l₁ hnd
  have h2 := sortSort_strict l₂ (((hp.map _).nodup_iff).mp hnd)
  have hperm : (sortSort (Reverse Less) l₁).Perm (sortSort (Reverse Less) l₂) :=
    ((sortSort_perm _ l₁).trans hp).trans (sortSort_perm _ l₂).symm
  haveI : IsAntisymm Entry (fun a b => b.Date.unix < a.Date.unix) :=
    ⟨fun a b hab hba => absurd hab (not_lt.mpr (le_of_lt hba))⟩
  exact List.eq_of_perm_of_sorted hperm h1 h2

/-! ## The calendar -/

theorem isDigit_iff (c : Char) : isDigit c = true ↔ 48 ≤ c.toNat ∧ c.toNat ≤ 57 := by
  simp [isDigit]

theorem digitVal_eq (c : Char) : digitVal c = c.toNat - 48 := rfl

theorem char_eq_of_digitVal {c c' : Char} (h : isDigit c = true) (h' : isDigit c' = true)
    (hv : digitVal c = digitVal c') : c = c' := by
  rw [isDigit_iff] at h h'
  rw [digitVal_eq, digitVal_eq] at hv
  have : c.toNat = c'.toNat := by omega
  apply Char.ext
  apply UInt32.ext
  exact this

theorem digitVal_le (c : Char) (h : isDigit c = true) : digitVal c ≤ 9 := by
  rw [isDigit_iff] at h
  rw [digitVal_eq]
  omega

theorem isLeap_iff (y : Nat) : isLeap y = true ↔ y % 4 = 0 ∧ (y % 100 ≠ 0 ∨ y % 400 = 0) := by
  simp [isLeap]

theorem leap_count (y : Nat) :
    (if y % 4 = 0 then 1 else 0) + (if y % 400 = 0 then 1 else 0)
      = (if y % 100 = 0 then 1 else 0) + (if isLeap y = true then 1 else 0) := by
  have d1 : y % 400 = 0 → y % 100 = 0 := by omega
  have d2 : y % 100 = 0 → y % 4 = 0 := by omega
  by_cases hl : isLeap y = true
  · rw [if_pos hl]
    rw [isLeap_iff] at hl
    split_ifs <;> omega
  · rw [if_neg hl]
    rw [isLeap_iff] at hl
    split_ifs <;> omega

theorem daysBeforeYear_succ (y : Nat) :
    daysBeforeYear (y + 1) = daysBeforeYear y + 365 + (if isLeap y = true then 1 else 0) := by
  unfold daysBeforeYear
  have h4 : (y + 1 + 3) / 4 = (y + 3) / 4 + (if y % 4 = 0 then 1 else 0) := by
    split <;> omega
  have h100 : (y + 1 + 99) / 100 = (y + 99) / 100 + (if y % 100 = 0 then 1 else 0) := by
    split <;> omega
  have h400 : (y + 1 + 399) / 400 = (y + 399) / 400 + (if y % 400 = 0 then 1 else 0) := by
    split <;> omega
  have hle : (y + 99) / 100 ≤ (y + 3) / 4 := by omega
  have hle2 : (y + 1 + 99) / 100 ≤ (y + 1 + 3) / 4 := by omega
  have key : ∀ A B C i4 i100 i400 l : Nat, B ≤ A → B + i100 ≤ A + i4 → i4 + i400 = i100 + l →
      365 * (y + 1) + (A + i4) - (B + i100) + (C + i400) = 365 * y + A - B + C + 365 + l := by
    intros
    omega
  rw [h4, h100] at hle2
  rw [h4, h100, h400]
  exact key _ _ _ _ _ _ _ hle hle2 (leap_count y)

theorem daysBeforeYear_lt {y y' : Nat} (h : y < y') :
    daysBeforeYear y + 365 + (if isLeap y = true then 1 else 0) ≤ daysBeforeYear y' := by
  induction y' with
  | zero => omega
  | succ n ih =>
    rcases Nat.lt_succ_iff_lt_or_eq.mp h with h1 | h1
    · have := ih h1
      rw [daysBeforeYear_succ n]
      omega
    · subst h1
      rw [daysBeforeYear_succ y]

theorem dayOfYear_lt (y m d : Nat) (hm1 : 1 ≤ m) (hm2 : m ≤ 12) (hd : d ≤ daysIn m y) :
    daysBefore m + (if isLeap y = true ∧ 3 ≤ m then 1 else 0) + (d - 1)
      < 365 + (if isLeap y = true then 1 else 0) := by
  unfold daysIn at hd
  by_cases hl : isLeap y = true <;> simp only [hl] at hd ⊢ <;>
    interval_cases m <;> simp [daysBefore] at hd ⊢ <;> omega

theorem dayOfYear_month_lt (y m d m' : Nat) (hm1 : 1 ≤ m) (hmm : m < m') (hm2 : m' ≤ 12)
    (hd : d ≤ daysIn m y) :
    daysBefore m + (if isLeap y = true ∧ 3 ≤ m then 1 else 0) + (d - 1)
      < daysBefore m' + (if isLeap y = true ∧ 3 ≤ m' then 1 else 0) := by
  unfold daysIn at hd
  by_cases hl : isLeap y = true <;> simp only [hl] at hd ⊢ <;>
    interval_cases m' <;> interval_cases m <;> simp [daysBefore] at hd ⊢ <;> omega

theorem daysSinceYearZero_inj {y m d y' m' d' : Nat}
    (hm1 : 1 ≤ m) (hm2 : m ≤ 12) (hd1 : 1 ≤ d) (hd2 : d ≤ daysIn m y)
    (hm1' : 1 ≤ m') (hm2' : m' ≤ 12) (hd1' : 1 ≤ d') (hd2' : d' ≤ daysIn m' y')
    (h : daysSinceYearZero y m d = daysSinceYearZero y' m' d') :
    y = y' ∧ m = m' ∧ d = d' := by
  unfold daysSinceYearZero at h
  have b := dayOfYear_lt y m d hm1 hm2 hd2
  have b' := dayOfYear_lt y' m' d' hm1' hm2' hd2'
  have hy : y = y' := by
    rcases Nat.lt_trichotomy y y' with c | c | c
    · have := daysBeforeYear_lt c
      omega
    · exact c
    · have := daysBeforeYear_lt c
      omega
  subst hy
  have hm : m = m' := by
    rcases Nat.lt_trichotomy m m' with c | c | c
    · have := dayOfYear_month_lt y m d m' hm1 c hm2' hd2
      omega
    · exact c
    · have := dayOfYear_month_lt y m' d' m hm1' c hm2 hd2'
      omega
  subst hm
  exact ⟨rfl, rfl, by omega⟩

/-- What a successful parse says about the text. -/
theorem ParseInLocation_some {value : String} {loc : Location} {t : Time}
    (h : ParseInLocation value loc = some t) :
    ∃ y1 y2 y3 y4 m1 m2 d1 d2 : Char,
      value.toList = [y1, y2, y3, y4, '-', m1, m2, '-', d1, d2] ∧
      isDigit y1 = true ∧ isDigit y2 = true ∧ isDigit y3 = true ∧ isDigit y4 = true ∧
      isDigit m1 = true ∧ isDigit m2 = true ∧ isDigit d1 = true ∧ isDigit d2 = true ∧
      1 ≤ digitVal m1 * 10 + digitVal m2 ∧ digitVal m1 * 10 + digitVal m2 ≤ 12 ∧
      1 ≤ digitVal d1 * 10 + digitVal d2 ∧
      digitVal d1 * 10 + digitVal d2 ≤ daysIn (digitVal m1 * 10 + digitVal m2)
        (digitVal y1 * 1000 + digitVal y2 * 100 + digitVal y3 * 10 + digitVal y4) ∧
      t = Date (digitVal y1 * 1000 + digitVal y2 * 100 + digitVal y3 * 10 + digitVal y4)
        (digitVal m1 * 10 + digitVal m2) (digitVal d1 * 10 + digitVal d2) loc := by
  unfold ParseInLocation at h
  split at h
  · rename_i y1 y2 y3 y4 s1 m1 m2 s2 d1 d2 heq
    split at h
    · rename_i hc
      simp only [Bool.and_eq_true, beq_iff_eq] at hc
      obtain ⟨⟨⟨⟨⟨⟨⟨⟨⟨a1, a2⟩, a3⟩, a4⟩, a5⟩, a6⟩, a7⟩, a8⟩, a9⟩, a10⟩ := hc
      subst a5 a8
      simp only at h
      split at h
      · exact absurd h (by simp)
      · split at h
        · exact absurd h (by simp)
        · rename_i hm hd
          refine ⟨y1, y2, y3, y4, m1, m2, d1, d2, heq, a1, a2, a3, a4, a6, a7, a9, a10, ?_, ?_, ?_,
            ?_, ?_⟩
          · omega
          · omega
          · omega
          · omega
          · exact (Option.some.inj h).symm
    · exact absurd h (by simp)
  · exact absurd h (by simp)

theorem lookupFrom_mem (sec offset start : Int) (l : List zoneTrans) :
    (lookupFrom sec offset start l).1 ∈ offset :: l.map (fun t => t.offset) := by
  induction l generalizing offset start with
  | nil => simp [lookupFrom]
  | cons t rest ih =>
    unfold lookupFrom
    split
    · simp
    · exact List.mem_cons_of_mem _ (by simpa using ih t.offset t.when)

theorem lookup_mem (loc : Location) (sec : Int) : (loc.lookup sec).1 ∈ loc.offsets :=
  lookupFrom_mem sec loc.firstOffset alphaSec loc.tx

/-- The instant of `Date` is the midnight of the date read as UTC, moved by
one of the offsets of the location. -/
theorem Date_unix (y m d : Nat) (loc : Location) :
    ∃ off ∈ loc.offsets,
      (Date y m d loc).unix = (Int.ofNat (daysSinceYearZero y m d) - 719528) * 86400 - off := by
  unfold Date
  simp only
  split
  · split
    · exact ⟨_, lookup_mem loc _, rfl⟩
    · exact ⟨_, lookup_mem loc _, rfl⟩
  · rename_i h
    have h0 : (loc.lookup ((Int.ofNat (daysSinceYearZero y m d) - 719528) * 86400)).1 = 0 :=
      not_not.mp h
    refine ⟨0, ?_, by simp⟩
    rw [← h0]
    exact lookup_mem loc _

/-- In a location whose offsets lie within less than a day of each other, two
keys that parse to the same instant are the same key. -/
theorem ParseInLocation_inj {v v' : String} {loc : Location} {t t' : Time}
    (hnarrow : NarrowOffsets loc)
    (h : ParseInLocation v loc = some t) (h' : ParseInLocation v' loc = some t')
    (hu : t.unix = t'.unix) : v = v' := by
  obtain ⟨y1, y2, y3, y4, m1, m2, d1, d2, hv, a1, a2, a3, a4, a6, a7, a9, a10, hm1, hm2, hd1, hd2,
    ht⟩ := ParseInLocation_some h
  obtain ⟨z1, z2, z3, z4, n1, n2, e1, e2, hv', b1, b2, b3, b4, b6, b7, b9, b10, hn1, hn2, he1, he2,
    ht'⟩ := ParseInLocation_some h'
  rw [ht, ht'] at hu
  obtain ⟨o, ho, hdo⟩ := Date_unix
    (digitVal y1 * 1000 + digitVal y2 * 100 + digitVal y3 * 10 + digitVal y4)
    (digitVal m1 * 10 + digitVal m2) (digitVal d1 * 10 + digitVal d2) loc
  obtain ⟨o', ho', hdo'⟩ := Date_unix
    (digitVal z1 * 1000 + digitVal z2 * 100 + digitVal z3 * 10 + digitVal z4)
    (digitVal n1 * 10 + digitVal n2) (digitVal e1 * 10 + digitVal e2) loc
  rw [hdo, hdo'] at hu
  have n1' := hnarrow o ho o' ho'
  have n2' := hnarrow o' ho' o ho
  have key : ∀ a b : Nat, (Int.ofNat a - 719528) * 86400 - o
      = (Int.ofNat b - 719528) * 86400 - o' → a = b := by
    intro a b hab
    simp only [Int.ofNat_eq_coe] at hab
    omega
  have hday := daysSinceYearZero_inj hm1 hm2 hd1 hd2 hn1 hn2 he1 he2 (key _ _ hu)
  obtain ⟨hy, hm, hd⟩ := hday
  have l1 := digitVal_le _ a1
  have l2 := digitVal_le _ a2
  have l3 := digitVal_le _ a3
  have l4 := digitVal_le _ a4
  have l6 := digitVal_le _ a6
  have l7 := digitVal_le _ a7
  have l9 := digitVal_le _ a9
  have l10 := digitVal_le _ a10
  have k1 := digitVal_le _ b1
  have k2 := digitVal_le _ b2
  have k3 := digitVal_le _ b3
  have k4 := digitVal_le _ b4
  have k6 := digitVal_le _ b6
  have k7 := digitVal_le _ b7
  have k9 := digitVal_le _ b9
  have k10 := digitVal_le _ b10
  have c1 := char_eq_of_digitVal a1 b1 (by omega)
  have c2 := char_eq_of_digitVal a2 b2 (by omega)
  have c3 := char_eq_of_digitVal a3 b3 (by omega)
  have c4 := char_eq_of_digitVal a4 b4 (by omega)
  have c6 := char_eq_of_digitVal a6 b6 (by omega)
  have c7 := char_eq_of_digitVal a7 b7 (by omega)
  have c9 := char_eq_of_digitVal a9 b9 (by omega)
  have c10 := char_eq_of_digitVal a10 b10 (by omega)
  apply String.ext
  show v.toList = v'.toList
  rw [hv, hv', c1, c2, c3, c4, c6, c7, c9, c10]

theorem ParseInLocation_isSome_loc (value : String) (loc loc' : Location) :
    (ParseInLocation value loc).isSome = (ParseInLocation value loc').isSome := by
  unfold ParseInLocation
  split
  · split
    · simp only
      split
      · rfl
      · split <;> rfl
    · rfl
  · rfl

theorem parseLoop_ok (loc : Location) (l : List (String × Entry)) (acc : List Entry)
    (h : ∀ kv ∈ l, (ParseInLocation kv.1 loc).isSome = true) :
    parseLoop loc l acc = .ok (acc ++ l.map (datedEntry loc)) := by
  induction l generalizing acc with
  | nil => simp [parseLoop]
  | cons kv rest ih =>
    obtain ⟨k, v⟩ := kv
    have hk := h (k, v) (List.mem_cons_self _ _)
    obtain ⟨t, ht⟩ := Option.isSome_iff_exists.mp hk
    simp only at ht
    unfold parseLoop
    simp only [ht]
    rw [ih _ (fun kv hkv => h kv (List.mem_cons_of_mem _ hkv))]
    simp [datedEntry, ht]

theorem parseLoop_error (loc : Location) (l : List (String × Entry)) (acc : List Entry)
    (h : ∃ kv ∈ l, ParseInLocation kv.1 loc = none) :
    ∃ d, parseLoop loc l acc = .error (.dateParse d) ∧ d ∈ l.map Prod.fst ∧
      ParseInLocation d loc = none := by
  induction l generalizing acc with
  | nil => simp at h
  | cons kv rest ih =>
    obtain ⟨k, v⟩ := kv
    unfold parseLoop
    cases hp : ParseInLocation k loc with
    | none => exact ⟨k, by simp, by simp, hp⟩
    | some t =>
      simp only
      obtain ⟨kv', hmem, hnone⟩ := h
      rcases List.mem_cons.mp hmem with h1 | h1
      · subst h1
        simp only [hp] at hnone
        exact absurd hnone (by simp)
      · obtain ⟨d, hd1, hd2, hd3⟩ := ih (acc ++ [{ v with Date := t }]) ⟨kv', h1, hnone⟩
        exact ⟨d, hd1, by simp only [List.map_cons, List.mem_cons]; exact Or.inr hd2, hd3⟩

theorem resolvesDistinct_of_narrow (loc : Location) (l : List (String × Entry))
    (hnarrow : NarrowOffsets loc)
    (hkeys : (l.map Prod.fst).Nodup)
    (h : ∀ kv ∈ l, (ParseInLocation kv.1 loc).isSome = true) :
    ResolvesDistinct loc l := by
  unfold ResolvesDistinct
  have e : (l.map (datedEntry loc)).map (fun e => e.Date.unix)
      = (l.map Prod.fst).map (fun k => ((ParseInLocation k loc).getD zeroTime).unix) := by
    simp [List.map_map, datedEntry, Function.comp_def]
  rw [e]
  refine List.Nodup.map_on ?_ hkeys
  intro x hx y hy hxy
  obtain ⟨kx, hkx, rfl⟩ := List.mem_map.mp hx
  obtain ⟨ky, hky, rfl⟩ := List.mem_map.mp hy
  obtain ⟨tx, htx⟩ := Option.isSome_iff_exists.mp (h kx hkx)
  obtain ⟨ty, hty⟩ := Option.isSome_iff_exists.mp (h ky hky)
  rw [htx, hty] at hxy
  exact ParseInLocation_inj hnarrow htx hty hxy

theorem narrow_of_bounds (l : Location) (lo hi : Int)
    (h : ∀ a ∈ l.offsets, lo ≤ a ∧ a ≤ hi) (hspan : hi - lo < 86400) : NarrowOffsets l := by
  intro a ha b hb
  have h1 := h a ha
  have h2 := h b hb
  omega

/-- US/Eastern has used offsets between UTC-5 and UTC-4 only. -/
theorem usEastern_narrow : NarrowOffsets usEastern :=
  narrow_of_bounds usEastern (-18000) (-14400) (by decide) (by decide)

theorem getSortedTimeSeries_ok (LoadLocation : String → Option Location)
    (timeseries : List (String × Entry)) (timezone : String) (loc : Location)
    (hloc : LoadLocation timezone = some loc)
    (h : ∀ kv ∈ timeseries, (ParseInLocation kv.1 loc).isSome = true) :
    getSortedTimeSeries LoadLocation timeseries timezone
      = (sortSort (Reverse Less) (timeseries.map (datedEntry loc)), none) := by
  unfold getSortedTimeSeries
  simp only [hloc, parseLoop_ok loc timeseries [] h, List.nil_append]

/-! ## Claims on the normalisation -/

theorem ValidDate.isSome {key : String} (h : ValidDate key) (loc : Location) :
    (ParseInLocation key loc).isSome = true := by
  rw [ParseInLocation_isSome_loc key loc utcLoc]
  exact h

/-- C2, as the claim states it, fails in Pacific/Apia: the distinct valid keys
2011-12-29 and 2011-12-30 resolve to the same instant there, and the two
entries of the result are adjacent with neither dated after the other. -/
theorem C2_apia_not_strict :
    tzdb "Pacific/Apia" = some pacificApia ∧
    (apiaDays.map Prod.fst).Nodup ∧
    (∀ kv ∈ apiaDays, ValidDate kv.1) ∧
    (getSortedTimeSeries tzdb apiaDays "Pacific/Apia").1.map (fun e => e.Date.unix)
      = [1325152800, 1325152800] ∧
    ¬ List.Chain' (fun a b => b.Date.Before a.Date = true)
      (getSortedTimeSeries tzdb apiaDays "Pacific/Apia").1 := by
  refine ⟨by decide, by decide, by decide, by decide, ?_⟩
  have hl : (getSortedTimeSeries tzdb apiaDays "Pacific/Apia").1
      = [{ mkEntry "29.00" with Date := { unix := 1325152800, loc := pacificApia } },
         { mkEntry "30.00" with Date := { unix := 1325152800, loc := pacificApia } }] := by
    decide
  rw [hl, List.chain'_pair]
  decide

/-- C2, amended: for a mapping whose keys are valid dates and a timezone that
resolves, `getSortedTimeSeries` returns no error and a sequence holding every
entry of the mapping in descending order of date: no entry is dated before
the entry that follows it. When the keys resolve to pairwise distinct instants
in the timezone the order is strict: each entry is dated strictly after the
entry that follows it. Distinct keys do resolve to distinct instants in every
timezone whose offsets lie within less than a day of each other. -/
theorem C2_descending (LoadLocation : String → Option Location)
    (timeseries : List (String × Entry)) (timezone : String) (loc : Location)
    (hloc : LoadLocation timezone = some loc)
    (hvalid : ∀ kv ∈ timeseries, ValidDate kv.1) :
    (getSortedTimeSeries LoadLocation timeseries timezone).2 = none ∧
    (getSortedTimeSeries LoadLocation timeseries timezone).1.length = timeseries.length ∧
    List.Chain' (fun a b => a.Date.Before b.Date = false)
      (getSortedTimeSeries LoadLocation timeseries timezone).1 ∧
    (ResolvesDistinct loc timeseries →
      List.Chain' (fun a b => b.Date.Before a.Date = true)
        (getSortedTimeSeries LoadLocation timeseries timezone).1) ∧
    (NarrowOffsets loc → (timeseries.map Prod.fst).Nodup → ResolvesDistinct loc timeseries) := by
  have hv : ∀ kv ∈ timeseries, (ParseInLocation kv.1 loc).isSome = true :=
    fun kv hkv => (hvalid kv hkv).isSome loc
  rw [getSortedTimeSeries_ok LoadLocation timeseries timezone loc hloc hv]
  refine ⟨rfl, ?_, ?_, ?_, ?_⟩
  · simpa using (sortSort_perm (Reverse Less) (timeseries.map (datedEntry loc))).length_eq
  · have hs := sortSort_descending (timeseries.map (datedEntry loc))
    exact List.Pairwise.chain' (hs.imp (fun h => by simpa [Time.Before] using h))
  · intro hdistinct
    have hs := sortSort_strict (timeseries.map (datedEntry loc)) hdistinct
    exact List.Pairwise.chain' (hs.imp (fun h => by simpa [Time.Before] using h))
  · intro hnarrow hkeys
    exact resolvesDistinct_of_narrow loc timeseries hnarrow hkeys hv

theorem C2_descending_witness :
    List.Chain' (fun a b => b.Date.Before a.Date = true)
      (getSortedTimeSeries tzdb fiveDays "US/Eastern").1 :=
  (C2_descending tzdb fiveDays "US/Eastern" usEastern (by decide) (by decide)).2.2.2.1
    ((C2_descending tzdb fiveDays "US/Eastern" usEastern (by decide) (by decide)).2.2.2.2
      usEastern_narrow (by decide))

/-- C7, as the claim states it, fails in Pacific/Apia: the two enumeration
orders of the mapping with keys 2011-12-29 and 2011-12-30 give two different
sequences, each keeping the order in which the two entries were enumerated. -/
theorem C7_apia_order_dependent :
    tzdb "Pacific/Apia" = some pacificApia ∧
    (apiaDays.map Prod.fst).Nodup ∧
    (∀ kv ∈ apiaDays, ValidDate kv.1) ∧
    (getSortedTimeSeries tzdb apiaDays "Pacific/Apia").1.map (fun e => e.Close)
      = ["29.00", "30.00"] ∧
    (getSortedTimeSeries tzdb apiaDays.reverse "Pacific/Apia").1.map (fun e => e.Close)
      = ["30.00", "29.00"] ∧
    getSortedTimeSeries tzdb apiaDays "Pacific/Apia"
      ≠ getSortedTimeSeries tzdb apiaDays.reverse "Pacific/Apia" := by
  decide

/-- C7, amended: two enumeration orders of the same mapping, with valid date
keys that resolve to pairwise distinct instants in the timezone, give the same
result of `getSortedTimeSeries`: the same entries at the same positions and
the same error value. -/
theorem C7_order_independent_distinct (LoadLocation : String → Option Location)
    (m₁ m₂ : List (String × Entry)) (timezone : String)
    (hperm : m₁.Perm m₂)
    (hvalid : ∀ kv ∈ m₁, ValidDate kv.1)
    (hdistinct : ∀ loc, LoadLocation timezone = some loc → ResolvesDistinct loc m₁) :
    getSortedTimeSeries LoadLocation m₁ timezone = getSortedTimeSeries LoadLocation m₂ timezone := by
  cases hloc : LoadLocation timezone with
  | none => simp [getSortedTimeSeries, hloc]
  | some loc =>
    have hv₁ : ∀ kv ∈ m₁, (ParseInLocation kv.1 loc).isSome = true :=
      fun kv hkv => (hvalid kv hkv).isSome loc
    have hv₂ : ∀ kv ∈ m₂, (ParseInLocation kv.1 loc).isSome = true :=
      fun kv hkv => hv₁ kv (hperm.mem_iff.mpr hkv)
    rw [getSortedTimeSeries_ok LoadLocation m₁ timezone loc hloc hv₁,
      getSortedTimeSeries_ok LoadLocation m₂ timezone loc hloc hv₂]
    rw [sortSort_eq_of_perm _ _ (hperm.map (datedEntry loc)) (hdistinct loc hloc)]

theorem C7_order_independent_distinct_witness :
    getSortedTimeSeries tzdb fiveDays "US/Eastern"
      = getSortedTimeSeries tzdb fiveDays.reverse "US/Eastern" :=
  C7_order_independent_distinct tzdb fiveDays fiveDays.reverse "US/Eastern"
    (List.reverse_perm fiveDays).symm (by decide)
    (fun loc hloc => by
      have h : usEastern = loc := Option.some.inj hloc
      subst h
      decide)

/-- C8: `getSortedTimeSeries` returns an error and an empty sequence when the
timezone does not resolve, and when some key of the mapping does not parse as
a date (the error names such a key); when the timezone resolves and every key
parses it returns no error. -/
theorem C8_normalisation_errors (LoadLocation : String → Option Location)
    (timeseries : List (String × Entry)) (timezone : String) :
    (LoadLocation timezone = none →
      getSortedTimeSeries LoadLocation timeseries timezone
        = ([], some (.invalidTimezone timezone))) ∧
    (∀ loc, LoadLocation timezone = some loc →
      (∃ kv ∈ timeseries, ParseInLocation kv.1 loc = none) →
      ∃ d, getSortedTimeSeries LoadLocation timeseries timezone = ([], some (.dateParse d)) ∧
        d ∈ timeseries.map Prod.fst ∧ ParseInLocation d loc = none) ∧
    (∀ loc, LoadLocation timezone = some loc →
      (∀ kv ∈ timeseries, (ParseInLocation kv.1 loc).isSome = true) →
      (getSortedTimeSeries LoadLocation timeseries timezone).2 = none) := by
  refine ⟨?_, ?_, ?_⟩
  · intro h
    simp [getSortedTimeSeries, h]
  · intro loc hloc hbad
    obtain ⟨d, hd1, hd2, hd3⟩ := parseLoop_error loc timeseries [] hbad
    exact ⟨d, by simp [getSortedTimeSeries, hloc, hd1], hd2, hd3⟩
  · intro loc hloc hall
    rw [getSortedTimeSeries_ok LoadLocation timeseries timezone loc hloc hall]

theorem C8_normalisation_errors_witness :
    getSortedTimeSeries tzdb fiveDays "Not/AZone" = ([], some (.invalidTimezone "Not/AZone")) ∧
    (∃ d, getSortedTimeSeries tzdb (fiveDays ++ [("2024-02-30", mkEntry "6")]) "UTC"
      = ([], some (.dateParse d)) ∧
      d ∈ (fiveDays ++ [("2024-02-30", mkEntry "6")]).map Prod.fst ∧
      ParseInLocation d utcLoc = none) ∧
    (getSortedTimeSeries tzdb fiveDays "UTC").2 = none :=
  ⟨(C8_normalisation_errors tzdb fiveDays "Not/AZone").1 (by decide),
   (C8_normalisation_errors tzdb (fiveDays ++ [("2024-02-30", mkEntry "6")]) "UTC").2.1
     utcLoc (by decide)
     ⟨("2024-02-30", mkEntry "6"), by decide, by decide⟩,
   (C8_normalisation_errors tzdb fiveDays "UTC").2.2 utcLoc (by decide)
     (by decide)⟩

/-! ## The cache -/

theorem Sub_lt_iff (t u : Int) : Sub t u < 600 * 1000000000 ↔ t - u < 600 * 1000000000 := by
  unfold Sub MinInt64 MaxInt64
  omega

theorem cacheLookup_eq_some_iff (svc : StockTickerService) (w : World) (s : StockTickerResponse) :
    cacheLookup svc w = some s ↔
      svc.cache = some s ∧ w.sinceNow - s.LastRefeshed < 600 * 1000000000 := by
  unfold cacheLookup
  cases hc : svc.cache with
  | none => simp
  | some c =>
    simp only [Sub_lt_iff]
    constructor
    · intro h
      split at h
      · rename_i hlt
        have := Option.some.inj h
        subst this
        exact ⟨rfl, hlt⟩
      · exact absurd h (by simp)
    · rintro ⟨h1, h2⟩
      have := Option.some.inj h1
      subst this
      rw [if_pos h2]

theorem CacheHit_iff (svc : StockTickerService) (w : World) :
    CacheHit svc w ↔
      ∃ s, svc.cache = some s ∧ w.sinceNow - s.LastRefeshed < 600 * 1000000000 := by
  unfold CacheHit
  cases svc.cache with
  | none => simp
  | some s => simp

theorem cacheLookup_eq_none_iff (svc : StockTickerService) (w : World) :
    cacheLookup svc w = none ↔ ¬ CacheHit svc w := by
  constructor
  · intro h hh
    obtain ⟨s, h1, h2⟩ := (CacheHit_iff svc w).mp hh
    rw [((cacheLookup_eq_some_iff svc w s).mpr ⟨h1, h2⟩)] at h
    exact absurd h (by simp)
  · intro h
    cases hc : cacheLookup svc w with
    | none => rfl
    | some s =>
      exact absurd ((CacheHit_iff svc w).mpr ⟨s, (cacheLookup_eq_some_iff svc w s).mp hc⟩) h

theorem refresh_upstreamCalls (svc : StockTickerService) (w : World) :
    (refresh svc w).upstreamCalls = 1 := by
  unfold refresh
  repeat' split
  all_goals rfl

/-- A refresh either leaves the service as it was and returns no response, or
returns the response it has just stored in the cache. -/
theorem refresh_cases (svc : StockTickerService) (w : World) :
    ((refresh svc w).svc = svc ∧ ∀ S, (refresh svc w).outcome ≠ .ok S) ∨
    (∃ S, (refresh svc w).outcome = .ok S ∧ (refresh svc w).svc = { svc with cache := some S } ∧
      S.LastRefeshed = w.now ∧ S.Days = svc.ndays ∧ S.Symbol = svc.symbol) := by
  unfold refresh
  repeat' split
  all_goals first
    | exact Or.inl ⟨rfl, fun S h => by cases h⟩
    | exact Or.inr ⟨_, rfl, rfl, rfl, rfl, rfl⟩

theorem GetStockInfo_miss (svc : StockTickerService) (w : World) (h : ¬ CacheHit svc w) :
    GetStockInfo svc w = refresh svc w := by
  unfold GetStockInfo
  rw [(cacheLookup_eq_none_iff svc w).mpr h]

theorem GetStockInfo_hit (svc : StockTickerService) (w : World) (s : StockTickerResponse)
    (h1 : svc.cache = some s) (h2 : w.sinceNow - s.LastRefeshed < 600 * 1000000000) :
    GetStockInfo svc w = { outcome := .ok s, svc := svc, upstreamCalls := 0 } := by
  unfold GetStockInfo
  rw [(cacheLookup_eq_some_iff svc w s).mpr ⟨h1, h2⟩]

theorem upstreamCalls_eq_zero_iff (svc : StockTickerService) (w : World) :
    (GetStockInfo svc w).upstreamCalls = 0 ↔ CacheHit svc w := by
  constructor
  · intro h
    by_contra hmiss
    rw [GetStockInfo_miss svc w hmiss, refresh_upstreamCalls] at h
    exact absurd h (by decide)
  · intro hh
    obtain ⟨s, h1, h2⟩ := (CacheHit_iff svc w).mp hh
    rw [GetStockInfo_hit svc w s h1 h2]

/-- C3: a call of `GetStockInfo` makes no upstream call exactly when a
snapshot is cached and `now - snapshot.LastRefeshed < 600 s`; it then returns
that snapshot and leaves the service, cache included, as it was. In every
other case it runs the refresh, which calls the upstream client once. -/
theorem C3_cache_hit_iff (svc : StockTickerService) (w : World) :
    ((GetStockInfo svc w).upstreamCalls = 0 ↔ CacheHit svc w) ∧
    (∀ s, svc.cache = some s → w.sinceNow - s.LastRefeshed < 600 * 1000000000 →
      GetStockInfo svc w = { outcome := .ok s, svc := svc, upstreamCalls := 0 }) ∧
    (¬ CacheHit svc w →
      GetStockInfo svc w = refresh svc w ∧ (GetStockInfo svc w).upstreamCalls = 1) := by
  refine ⟨upstreamCalls_eq_zero_iff svc w, GetStockInfo_hit svc w, ?_⟩
  · intro hmiss
    rw [GetStockInfo_miss svc w hmiss]
    exact ⟨rfl, refresh_upstreamCalls svc w⟩

/-- C9: when a call of `GetStockInfo` refreshes and succeeds with snapshot
`S`, the cache then holds exactly `S`, stamped with the time of that call, and
a next call less than 600 s after that stamp returns `S` again, with no
upstream call and the service unchanged. -/
theorem C9_second_call_hits (svc : StockTickerService) (w₁ w₂ : World) (S : StockTickerResponse)
    (hrefresh : (GetStockInfo svc w₁).upstreamCalls = 1)
    (hok : (GetStockInfo svc w₁).outcome = .ok S)
    (hfresh : w₂.sinceNow - S.LastRefeshed < 600 * 1000000000) :
    (GetStockInfo svc w₁).svc.cache = some S ∧ S.LastRefeshed = w₁.now ∧
    GetStockInfo (GetStockInfo svc w₁).svc w₂
      = { outcome := .ok S, svc := (GetStockInfo svc w₁).svc, upstreamCalls := 0 } := by
  have hmiss : ¬ CacheHit svc w₁ := by
    intro hhit
    rw [(upstreamCalls_eq_zero_iff svc w₁).mpr hhit] at hrefresh
    exact absurd hrefresh (by decide)
  rw [GetStockInfo_miss svc w₁ hmiss] at hok ⊢
  rcases refresh_cases svc w₁ with ⟨_, hno⟩ | ⟨S', h1, h2, h3, _, _⟩
  · exact absurd hok (hno S)
  · rw [h1] at hok
    have hS : S' = S := Outcome.ok.inj hok
    subst hS
    have hc : (refresh svc w₁).svc.cache = some S' := by rw [h2]
    exact ⟨hc, h3, GetStockInfo_hit _ w₂ S' hc hfresh⟩

theorem C3_cache_hit_iff_witness :
    GetStockInfo { NewStockTickerService "k" 3 "ABC" with cache := some oldSnapshot }
        (worldOf fiveDays "US/Eastern" 1704499599999999999)
      = { outcome := .ok oldSnapshot,
          svc := { NewStockTickerService "k" 3 "ABC" with cache := some oldSnapshot },
          upstreamCalls := 0 } ∧
    (GetStockInfo { NewStockTickerService "k" 3 "ABC" with cache := some oldSnapshot }
        (worldOf fiveDays "US/Eastern" 1704499600000000000)).upstreamCalls = 1 :=
  ⟨(C3_cache_hit_iff _ _).2.1 oldSnapshot rfl (by decide),
   ((C3_cache_hit_iff _ _).2.2 (by decide)).2⟩

theorem C9_second_call_hits_witness :
    (GetStockInfo (NewStockTickerService "k" 3 "ABC")
        (worldOf fiveDays "US/Eastern" 1704500000000000000)).outcome = .ok abcSnapshot ∧
      GetStockInfo (GetStockInfo (NewStockTickerService "k" 3 "ABC")
          (worldOf fiveDays "US/Eastern" 1704500000000000000)).svc
          (worldOf [] "Not/AZone" 1704500600000000000)
        = { outcome := .ok abcSnapshot,
            svc := (GetStockInfo (NewStockTickerService "k" 3 "ABC")
              (worldOf fiveDays "US/Eastern" 1704500000000000000)).svc,
            upstreamCalls := 0 } :=
  ⟨by decide,
    (C9_second_call_hits (NewStockTickerService "k" 3 "ABC")
      (worldOf fiveDays "US/Eastern" 1704500000000000000)
      (worldOf [] "Not/AZone" 1704500600000000000) abcSnapshot (by decide) (by decide)
      (by decide)).2.2⟩

/-! ## The refresh -/

theorem windowLoop_ok (l : List Entry) (series : List ResponseEntry) (total : Decimal)
    (h : ∀ e ∈ l, (NewFromString e.Close).isSome = true) :
    windowLoop l series total
      = .ok (series ++ l.map Entry.toResponseEntry,
          l.foldl (fun total e => total.Add (closeOf e)) total) := by
  induction l generalizing series total with
  | nil => simp [windowLoop]
  | cons e rest ih =>
    obtain ⟨c, hc⟩ := Option.isSome_iff_exists.mp (h e (List.mem_cons_self _ _))
    unfold windowLoop
    simp only [hc]
    rw [ih _ _ (fun e' he' => h e' (List.mem_cons_of_mem _ he'))]
    simp [closeOf, hc]

theorem windowLoop_error (l : List Entry) (series : List ResponseEntry) (total : Decimal)
    (h : ∃ e ∈ l, NewFromString e.Close = none) :
    ∃ c, windowLoop l series total = .error (.closeParse c) ∧ NewFromString c = none := by
  induction l generalizing series total with
  | nil => simp at h
  | cons e rest ih =>
    unfold windowLoop
    cases hp : NewFromString e.Close with
    | none => exact ⟨e.Close, rfl, hp⟩
    | some c =>
      simp only
      obtain ⟨e', hmem, hnone⟩ := h
      rcases List.mem_cons.mp hmem with h1 | h1
      · subst h1
        rw [hp] at hnone
        exact absurd hnone (by simp)
      · exact ih _ _ ⟨e', h1, hnone⟩

theorem wrapInt32_range (x : Int) : MinInt32 ≤ wrapInt32 x ∧ wrapInt32 x ≤ MaxInt32 := by
  unfold wrapInt32 MinInt32 MaxInt32
  omega

theorem QuoRem_isSome (d d2 : Decimal) (precision : Int) (h : d2.value ≠ 0) :
    ∃ q r, d.QuoRem d2 precision = some (q, r) := by
  have hr := wrapInt32_range (wrapInt32 (d.exp - d2.exp) - -precision)
  unfold Decimal.QuoRem
  rw [if_neg h]
  simp only
  rw [if_neg (by omega)]
  split_ifs
  · exact ⟨_, _, rfl⟩
  · exact ⟨_, _, rfl⟩

theorem DivRound_isSome (d d2 : Decimal) (precision : Int) (h : d2.value ≠ 0) :
    (d.DivRound d2 precision).isSome = true := by
  obtain ⟨q, r, hqr⟩ := QuoRem_isSome d d2 precision h
  unfold Decimal.DivRound
  rw [hqr]
  simp only
  split_ifs <;> rfl

theorem DivRound_zero (d d2 : Decimal) (precision : Int) (h : d2.value = 0) :
    d.DivRound d2 precision = none := by
  unfold Decimal.DivRound Decimal.QuoRem
  rw [if_pos h]

theorem refresh_ok (svc : StockTickerService) (w : World) (resp : StockInfoResponse)
    (ts : List Entry)
    (hresp : w.retrieveStockInfo = .ok resp)
    (hts : getSortedTimeSeries w.LoadLocation resp.TimeSeries resp.Metadata.Timezone = (ts, none))
    (h1 : 1 ≤ svc.ndays) (h2 : svc.ndays ≤ Int.ofNat ts.length)
    (hclose : ∀ e ∈ ts.take svc.ndays.toNat, (NewFromString e.Close).isSome = true) :
    ∃ average,
      (totalOf (ts.take svc.ndays.toNat)).DivRound (NewFromInt svc.ndays) 2 = some average ∧
      refresh svc w = { outcome := .ok (snapshotOf svc w ts average),
                        svc := { svc with cache := some (snapshotOf svc w ts average) },
                        upstreamCalls := 1 } := by
  obtain ⟨average, havg⟩ := Option.isSome_iff_exists.mp
    (DivRound_isSome (totalOf (ts.take svc.ndays.toNat)) (NewFromInt svc.ndays) 2
      (by simp only [NewFromInt]; omega))
  refine ⟨average, havg, ?_⟩
  unfold refresh
  simp only [hresp, hts]
  rw [if_neg (by omega)]
  rw [windowLoop_ok _ _ _ hclose]
  simp only [List.nil_append]
  unfold totalOf at havg
  rw [havg]
  rfl

theorem refresh_short (svc : StockTickerService) (w : World) (resp : StockInfoResponse)
    (ts : List Entry)
    (hresp : w.retrieveStockInfo = .ok resp)
    (hts : getSortedTimeSeries w.LoadLocation resp.TimeSeries resp.Metadata.Timezone = (ts, none))
    (h : Int.ofNat ts.length < svc.ndays) :
    refresh svc w
      = { outcome := .panic "slice bounds out of range", svc := svc, upstreamCalls := 1 } := by
  unfold refresh
  simp only [hresp, hts]
  rw [if_pos (Or.inr h)]

/-- C5: on a call that has to refresh, when the upstream fetch fails, or the
timezone does not resolve, or a key of the mapping is not a date, or a close
price inside the window is not a decimal, `GetStockInfo` returns an error and
no response, and the service, cache included, is what it was before the
call. -/
theorem C5_failed_refresh_keeps_cache (svc : StockTickerService) (w : World)
    (hmiss : ¬ CacheHit svc w)
    (hfail : (∃ msg, w.retrieveStockInfo = .error msg) ∨
      (∃ resp, w.retrieveStockInfo = .ok resp ∧ w.LoadLocation resp.Metadata.Timezone = none) ∨
      (∃ resp, w.retrieveStockInfo = .ok resp ∧ ∃ kv ∈ resp.TimeSeries, ¬ ValidDate kv.1) ∨
      (∃ resp ts, w.retrieveStockInfo = .ok resp ∧
        getSortedTimeSeries w.LoadLocation resp.TimeSeries resp.Metadata.Timezone = (ts, none) ∧
        0 ≤ svc.ndays ∧ svc.ndays ≤ Int.ofNat ts.length ∧
        ∃ e ∈ ts.take svc.ndays.toNat, NewFromString e.Close = none)) :
    (∃ err, (GetStockInfo svc w).outcome = .error err) ∧ (GetStockInfo svc w).svc = svc := by
  rw [GetStockInfo_miss svc w hmiss]
  rcases hfail with ⟨msg, h⟩ | ⟨resp, h, hloc⟩ | ⟨resp, h, kv, hkv, hbad⟩ | ⟨resp, ts, h, hts, h0, h1, hc⟩
  · unfold refresh
    simp only [h]
    exact ⟨⟨_, rfl⟩, trivial⟩
  · unfold refresh
    simp only [h, getSortedTimeSeries, hloc]
    exact ⟨⟨_, rfl⟩, trivial⟩
  · unfold refresh
    simp only [h]
    cases hloc : w.LoadLocation resp.Metadata.Timezone with
    | none =>
      simp only [getSortedTimeSeries, hloc]
      exact ⟨⟨_, rfl⟩, trivial⟩
    | some loc =>
      have hnone : ParseInLocation kv.1 loc = none := by
        cases hp : ParseInLocation kv.1 loc with
        | none => rfl
        | some t =>
          exfalso
          apply hbad
          unfold ValidDate
          rw [← ParseInLocation_isSome_loc kv.1 loc, hp]
          rfl
      obtain ⟨d, hd, _, _⟩ := parseLoop_error loc resp.TimeSeries [] ⟨kv, hkv, hnone⟩
      simp only [getSortedTimeSeries, hloc, hd]
      exact ⟨⟨_, rfl⟩, trivial⟩
  · obtain ⟨c, hc1, _⟩ := windowLoop_error _ [] Decimal.zero hc
    unfold refresh
    simp only [h, hts]
    rw [if_neg (by omega)]
    simp only [hc1]
    exact ⟨⟨_, rfl⟩, trivial⟩

theorem take_mem_iff (ts : List Entry) (h : ts.Pairwise (fun a b => b.Date.unix < a.Date.unix))
    (n : Nat) (e : Entry) (he : e ∈ ts) :
    e ∈ ts.take n ↔ ts.countP (fun x => decide (e.Date.unix < x.Date.unix)) < n := by
  induction ts generalizing n with
  | nil => simp at he
  | cons a rest ih =>
    rw [List.pairwise_cons] at h
    have hrest : ∀ b ∈ rest, e.Date.unix < b.Date.unix → a.Date.unix ≠ e.Date.unix := by
      intro b hb hlt heq
      have := h.1 b hb
      omega
    cases n with
    | zero => simp
    | succ n' =>
      rcases List.mem_cons.mp he with h1 | h1
      · subst h1
        have hz : rest.countP (fun x => decide (e.Date.unix < x.Date.unix)) = 0 := by
          rw [List.countP_eq_zero]
          intro b hb
          have := h.1 b hb
          simp only [decide_eq_true_eq, not_lt]
          omega
        simp [List.countP_cons, hz]
      · have hlt := h.1 e h1
        have hne : e ≠ a := by
          intro heq
          rw [heq] at hlt
          omega
        rw [List.take_succ_cons, List.mem_cons, List.countP_cons]
        simp only [hlt, decide_True, if_true]
        rw [Nat.succ_lt_succ_iff, ← ih h.2 n' h1]
        constructor
        · rintro (h2 | h2)
          · exact absurd h2 hne
          · exact h2
        · exact Or.inr

/-- The window of a normalised series holds exactly the entries of the pairs
that have fewer than `n` pairs dated after them, when the pairs resolve to
pairwise distinct instants. -/
theorem window_mem_iff (loc : Location) (timeseries : List (String × Entry))
    (hdistinct : ResolvesDistinct loc timeseries) (n : Nat) (e : Entry) :
    e ∈ (sortSort (Reverse Less) (timeseries.map (datedEntry loc))).take n ↔
      ∃ kv ∈ timeseries, newerCount loc timeseries kv < n ∧ e = datedEntry loc kv := by
  have hs := sortSort_strict (timeseries.map (datedEntry loc)) hdistinct
  have hperm := sortSort_perm (Reverse Less) (timeseries.map (datedEntry loc))
  have hcount : ∀ kv, newerCount loc timeseries kv
      = (sortSort (Reverse Less) (timeseries.map (datedEntry loc))).countP
          (fun x => decide ((datedEntry loc kv).Date.unix < x.Date.unix)) := by
    intro kv
    rw [hperm.countP_eq, List.countP_map]
    rfl
  constructor
  · intro he
    have hmem : e ∈ sortSort (Reverse Less) (timeseries.map (datedEntry loc)) :=
      List.mem_of_mem_take he
    obtain ⟨kv, hkv, rfl⟩ := List.mem_map.mp (hperm.mem_iff.mp hmem)
    exact ⟨kv, hkv, by rw [hcount]; exact (take_mem_iff _ hs n _ hmem).mp he, rfl⟩
  · rintro ⟨kv, hkv, hlt, rfl⟩
    have hmem : datedEntry loc kv ∈ sortSort (Reverse Less) (timeseries.map (datedEntry loc)) :=
      hperm.mem_iff.mpr (List.mem_map_of_mem _ hkv)
    rw [hcount] at hlt
    exact (take_mem_iff _ hs n _ hmem).mpr hlt

theorem take_count_lt (ts : List Entry) (h : ts.Pairwise (fun a b => b.Date.unix ≤ a.Date.unix))
    (n : Nat) (e : Entry) (he : e ∈ ts.take n) :
    ts.countP (fun x => decide (e.Date.unix < x.Date.unix)) < n := by
  induction ts generalizing n with
  | nil => simp at he
  | cons a rest ih =>
    rw [List.pairwise_cons] at h
    cases n with
    | zero => simp at he
    | succ n' =>
      rw [List.take_succ_cons, List.mem_cons] at he
      rcases he with h1 | h1
      · subst h1
        have hz : rest.countP (fun x => decide (e.Date.unix < x.Date.unix)) = 0 := by
          rw [List.countP_eq_zero]
          intro b hb
          have := h.1 b hb
          simp only [decide_eq_true_eq, not_lt]
          omega
        simp [List.countP_cons, hz]
      · have := ih h.2 n' h1
        rw [List.countP_cons]
        split <;> omega

/-- Every entry of the window of a normalised series comes from a pair that
has fewer than `n` pairs dated strictly after it. -/
theorem window_newerCount (loc : Location) (timeseries : List (String × Entry)) (n : Nat)
    (e : Entry)
    (he : e ∈ (sortSort (Reverse Less) (timeseries.map (datedEntry loc))).take n) :
    ∃ kv ∈ timeseries, newerCount loc timeseries kv < n ∧ e = datedEntry loc kv := by
  have hs := sortSort_descending (timeseries.map (datedEntry loc))
  have hperm := sortSort_perm (Reverse Less) (timeseries.map (datedEntry loc))
  have hmem : e ∈ sortSort (Reverse Less) (timeseries.map (datedEntry loc)) :=
    List.mem_of_mem_take he
  obtain ⟨kv, hkv, rfl⟩ := List.mem_map.mp (hperm.mem_iff.mp hmem)
  refine ⟨kv, hkv, ?_, rfl⟩
  have hcount : newerCount loc timeseries kv
      = (sortSort (Reverse Less) (timeseries.map (datedEntry loc))).countP
          (fun x => decide ((datedEntry loc kv).Date.unix < x.Date.unix)) := by
    rw [hperm.countP_eq, List.countP_map]
    rfl
  rw [hcount]
  exact take_count_lt _ hs n _ he

theorem refresh_zero (svc : StockTickerService) (w : World) (resp : StockInfoResponse)
    (ts : List Entry)
    (hresp : w.retrieveStockInfo = .ok resp)
    (hts : getSortedTimeSeries w.LoadLocation resp.TimeSeries resp.Metadata.Timezone = (ts, none))
    (h : svc.ndays = 0) :
    refresh svc w = { outcome := .panic "decimal division by 0", svc := svc, upstreamCalls := 1 } := by
  unfold refresh
  have hlen : (0 : Int) ≤ Int.ofNat ts.length := Int.ofNat_nonneg ts.length
  simp only [hresp, hts, h]
  rw [if_neg (by omega)]
  simp [windowLoop, DivRound_zero _ (NewFromInt 0) 2 rfl]

theorem parseEnv_ndays (LookupEnv : String → Option String) (cfg : configFromEnv)
    (h : parseEnv LookupEnv = .ok cfg) : 1 ≤ cfg.ndays := by
  unfold parseEnv at h
  simp only at h
  repeat' split at h
  all_goals cases h
  simp only
  omega

theorem windowLoop_ok_inv (l : List Entry) (series : List ResponseEntry) (total : Decimal)
    (h : windowLoop l [] Decimal.zero = .ok (series, total)) :
    (∀ e ∈ l, (NewFromString e.Close).isSome = true) ∧
      series = l.map Entry.toResponseEntry ∧ total = totalOf l := by
  by_cases hall : ∀ e ∈ l, (NewFromString e.Close).isSome = true
  · rw [windowLoop_ok l [] Decimal.zero hall] at h
    have h' := Except.ok.inj h
    simp only [List.nil_append, Prod.mk.injEq] at h'
    exact ⟨hall, h'.1.symm, h'.2.symm⟩
  · exfalso
    simp only [not_forall] at hall
    obtain ⟨e, he, hne⟩ := hall
    have hnone : NewFromString e.Close = none := by
      cases hp : NewFromString e.Close with
      | none => rfl
      | some c => rw [hp] at hne; exact absurd rfl hne
    obtain ⟨c, hc, _⟩ := windowLoop_error l [] Decimal.zero ⟨e, he, hnone⟩
    rw [hc] at h
    cases h

/-- What a refresh that returns a response has done. -/
theorem refresh_ok_inv (svc : StockTickerService) (w : World) (S : StockTickerResponse)
    (h : (refresh svc w).outcome = .ok S) :
    ∃ resp ts, w.retrieveStockInfo = .ok resp ∧
      getSortedTimeSeries w.LoadLocation resp.TimeSeries resp.Metadata.Timezone = (ts, none) ∧
      0 ≤ svc.ndays ∧ svc.ndays ≤ Int.ofNat ts.length ∧
      (∀ e ∈ ts.take svc.ndays.toNat, (NewFromString e.Close).isSome = true) ∧
      (totalOf (ts.take svc.ndays.toNat)).DivRound (NewFromInt svc.ndays) 2
        = some S.AverageClosingPrice ∧
      S = snapshotOf svc w ts S.AverageClosingPrice := by
  unfold refresh at h
  split at h
  · cases h
  · rename_i resp hresp
    split at h
    · cases h
    · rename_i ts hts
      split at h
      · cases h
      · rename_i hb
        split at h
        · cases h
        · rename_i series total hloop
          split at h
          · cases h
          · rename_i average havg
            simp only at h
            have hS := Outcome.ok.inj h
            obtain ⟨hall, hseries, htotal⟩ := windowLoop_ok_inv _ series total hloop
            subst hS
            refine ⟨resp, ts, hresp, hts, by omega, by omega, hall, ?_, ?_⟩
            · rw [← htotal]
              exact havg
            · simp only [snapshotOf, hseries]

/-- C4, as the claim states it, fails in Pacific/Apia: with the distinct valid
keys 2011-12-29 and 2011-12-30 and a window of 1, the refresh succeeds and the
snapshot holds the record of 2011-12-29, which has a later date after it, and
not the record of 2011-12-30, the latest date. -/
theorem C4_apia_window_not_latest :
    tzdb "Pacific/Apia" = some pacificApia ∧
    (apiaDays.map Prod.fst).Nodup ∧
    (∀ kv ∈ apiaDays, ValidDate kv.1) ∧
    (GetStockInfo (NewStockTickerService "k" 1 "ABC")
      (worldOf apiaDays "Pacific/Apia" 1704500000000000000)).upstreamCalls = 1 ∧
    (GetStockInfo (NewStockTickerService "k" 1 "ABC")
      (worldOf apiaDays "Pacific/Apia" 1704500000000000000)).outcome = .ok apiaSnapshot ∧
    apiaSnapshot.StockTimeSeries.map (fun r => r.Close) = ["29.00"] ∧
    laterDateCount apiaDays ("2011-12-29", mkEntry "29.00") = 1 ∧
    laterDateCount apiaDays ("2011-12-30", mkEntry "30.00") = 0 := by
  decide

/-- C4, amended: on a refresh that succeeds, over a mapping of valid dates that
resolve to pairwise distinct instants in the timezone of the response, the
snapshot holds the first N entries of the normalised sequence, N of them,
newest first; they are the entries of exactly the N latest resolved dates
(those with fewer than N dates after them), each with the date its key parses
to and the Open, High, Low, Close and Volume strings of its upstream record;
`Days` is N and `Symbol` is the configured symbol. -/
theorem C4_window_is_latest_distinct (svc : StockTickerService) (w : World) (resp : StockInfoResponse)
    (loc : Location) (S : StockTickerResponse)
    (hrefresh : (GetStockInfo svc w).upstreamCalls = 1)
    (hok : (GetStockInfo svc w).outcome = .ok S)
    (hresp : w.retrieveStockInfo = .ok resp)
    (hloc : w.LoadLocation resp.Metadata.Timezone = some loc)
    (hvalid : ∀ kv ∈ resp.TimeSeries, ValidDate kv.1)
    (hdistinct : ResolvesDistinct loc resp.TimeSeries) :
    S.StockTimeSeries
      = ((getSortedTimeSeries w.LoadLocation resp.TimeSeries resp.Metadata.Timezone).1.take
          svc.ndays.toNat).map Entry.toResponseEntry ∧
    Int.ofNat S.StockTimeSeries.length = svc.ndays ∧
    S.Days = svc.ndays ∧ S.Symbol = svc.symbol ∧
    S.StockTimeSeries.Pairwise (fun a b => b.Date.Before a.Date = true) ∧
    (∀ r, r ∈ S.StockTimeSeries ↔
      ∃ kv ∈ resp.TimeSeries, newerCount loc resp.TimeSeries kv < svc.ndays.toNat ∧
        ∃ date, ParseInLocation kv.1 loc = some date ∧
          r = { Date := date, Open := kv.2.Open, High := kv.2.High, Low := kv.2.Low,
                Close := kv.2.Close, Volume := kv.2.Volume }) := by
  have hmiss : ¬ CacheHit svc w := by
    intro hhit
    rw [(upstreamCalls_eq_zero_iff svc w).mpr hhit] at hrefresh
    exact absurd hrefresh (by decide)
  rw [GetStockInfo_miss svc w hmiss] at hok
  obtain ⟨resp', ts, hresp', hts, h0, hlen, _, _, hS⟩ := refresh_ok_inv svc w S hok
  rw [hresp] at hresp'
  have hr : resp = resp' := Except.ok.inj hresp'
  subst hr
  have hv : ∀ kv ∈ resp.TimeSeries, (ParseInLocation kv.1 loc).isSome = true :=
    fun kv hkv => (hvalid kv hkv).isSome loc
  have hsorted := getSortedTimeSeries_ok w.LoadLocation resp.TimeSeries resp.Metadata.Timezone
    loc hloc hv
  rw [hsorted] at hts
  have hts' : ts = sortSort (Reverse Less) (resp.TimeSeries.map (datedEntry loc)) :=
    (Prod.mk.inj hts).1.symm
  have hseries : S.StockTimeSeries = (ts.take svc.ndays.toNat).map Entry.toResponseEntry := by
    rw [hS]
    rfl
  have hstrict := sortSort_strict (resp.TimeSeries.map (datedEntry loc)) hdistinct
  rw [← hts'] at hstrict
  refine ⟨?_, ?_, ?_, ?_, ?_, ?_⟩
  · rw [hsorted, ← hts']
    exact hseries
  · rw [hseries, List.length_map, List.length_take]
    simp only [Int.ofNat_eq_coe] at hlen ⊢
    omega
  · rw [hS]; rfl
  · rw [hS]; rfl
  · rw [hseries, List.pairwise_map]
    exact ((hstrict.sublist (List.take_sublist _ _))).imp
      (fun h => by simpa [Entry.toResponseEntry, Time.Before] using h)
  · intro r
    rw [hseries, List.mem_map]
    constructor
    · rintro ⟨e, he, rfl⟩
      rw [hts'] at he
      obtain ⟨kv, hkv, hcount, rfl⟩ :=
        (window_mem_iff loc resp.TimeSeries hdistinct _ e).mp he
      obtain ⟨date, hdate⟩ := Option.isSome_iff_exists.mp (hv kv hkv)
      exact ⟨kv, hkv, hcount, date, hdate, by simp [Entry.toResponseEntry, datedEntry, hdate]⟩
    · rintro ⟨kv, hkv, hcount, date, hdate, rfl⟩
      refine ⟨datedEntry loc kv, ?_, by simp [Entry.toResponseEntry, datedEntry, hdate]⟩
      rw [hts']
      exact (window_mem_iff loc resp.TimeSeries hdistinct _ _).mpr ⟨kv, hkv, hcount, rfl⟩

theorem C4_window_is_latest_distinct_witness :
    (GetStockInfo (NewStockTickerService "k" 3 "ABC")
        (worldOf fiveDays "US/Eastern" 1704500000000000000)).outcome = .ok abcSnapshot ∧
    abcSnapshot.StockTimeSeries.map (fun r => r.Close) = ["5", "4", "3"] ∧
    abcSnapshot.AverageClosingPrice = { value := 400, exp := -2 } ∧
    abcSnapshot.StockTimeSeries
      = ((getSortedTimeSeries tzdb fiveDays "US/Eastern").1.take 3).map Entry.toResponseEntry :=
  ⟨by decide, by decide, by decide,
    (C4_window_is_latest_distinct (NewStockTickerService "k" 3 "ABC")
      (worldOf fiveDays "US/Eastern" 1704500000000000000)
      { Metadata := metadataOf "US/Eastern", TimeSeries := fiveDays }
      usEastern abcSnapshot
      (by decide) (by decide) rfl (by decide) (by decide) (by decide)).1⟩

theorem C5_failed_refresh_keeps_cache_witness :
    ((∃ err, (GetStockInfo { NewStockTickerService "k" 3 "ABC" with cache := some oldSnapshot }
        (worldOf fiveDays "Not/AZone" 1704500000000000000)).outcome = .error err) ∧
      (GetStockInfo { NewStockTickerService "k" 3 "ABC" with cache := some oldSnapshot }
        (worldOf fiveDays "Not/AZone" 1704500000000000000)).svc
        = { NewStockTickerService "k" 3 "ABC" with cache := some oldSnapshot }) ∧
    ((∃ err, (GetStockInfo { NewStockTickerService "k" 4 "ABC" with cache := some oldSnapshot }
        (worldOf fiveDaysOldBad "UTC" 1704500000000000000)).outcome = .error err) ∧
      (GetStockInfo { NewStockTickerService "k" 4 "ABC" with cache := some oldSnapshot }
        (worldOf fiveDaysOldBad "UTC" 1704500000000000000)).svc
        = { NewStockTickerService "k" 4 "ABC" with cache := some oldSnapshot }) :=
  ⟨C5_failed_refresh_keeps_cache _ _ (by decide) (Or.inr (Or.inl ⟨_, rfl, by decide⟩)),
   C5_failed_refresh_keeps_cache _ _ (by decide)
     (Or.inr (Or.inr (Or.inr ⟨_, (getSortedTimeSeries tzdb fiveDaysOldBad "UTC").1, rfl,
       by decide, by decide, by decide,
       { mkEntry "" with Date := { unix := 1704153600, loc := utcLoc } },
       by decide, by decide⟩)))⟩

/-- C6: with two dates upstream and a window of 5, a refresh over a stale
cached snapshot ends in the run-time panic of `ts[:svc.ndays]`: no error value
is returned to the caller. The cached snapshot is left as it was. -/
theorem C6_short_series_panics :
    GetStockInfo { NewStockTickerService "k" 5 "ABC" with cache := some oldSnapshot }
        (worldOf twoDays "US/Eastern" 1704500000000000000)
      = { outcome := .panic "slice bounds out of range",
          svc := { NewStockTickerService "k" 5 "ABC" with cache := some oldSnapshot },
          upstreamCalls := 1 } := by
  decide

/-- C10, as the claim states it, fails in Pacific/Apia: with the distinct valid
keys 2011-12-29 and 2011-12-30, a window of 1 and a decimal close price on
the latest date, 2011-12-30, the refresh puts the record of 2011-12-29 in the
window and returns the error of its close price. -/
theorem C10_apia_newest_valid_yet_error :
    tzdb "Pacific/Apia" = some pacificApia ∧
    (apiaOldBad.map Prod.fst).Nodup ∧
    (∀ kv ∈ apiaOldBad, ValidDate kv.1) ∧
    (∀ kv ∈ apiaOldBad, laterDateCount apiaOldBad kv < 1 →
      (NewFromString kv.2.Close).isSome = true) ∧
    GetStockInfo (NewStockTickerService "k" 1 "ABC")
        (worldOf apiaOldBad "Pacific/Apia" 1704500000000000000)
      = { outcome := .error (.closeParse "n/a"), svc := NewStockTickerService "k" 1 "ABC",
          upstreamCalls := 1 } := by
  decide

/-- C10, amended: a refresh over a mapping of valid dates in a timezone that
resolves, with `1 ≤ N ≤` the number of entries and a decimal close price on
every entry that has fewer than N entries dated, as resolved in the timezone,
strictly after it (the N newest entries when the dates resolve to distinct
instants), ends with a response, stored in the cache, and no error; nothing
is asked of the close prices of the other entries. `parseEnv` only accepts
`NDAYS ≥ 1`, `NewStockTickerService` stores any `ndays`, and with `ndays = 0`
a refresh that gets through normalisation panics on the division. -/
theorem C10_refresh_total_resolved :
    (∀ (svc : StockTickerService) (w : World) (resp : StockInfoResponse) (loc : Location),
      ¬ CacheHit svc w →
      w.retrieveStockInfo = .ok resp →
      w.LoadLocation resp.Metadata.Timezone = some loc →
      (∀ kv ∈ resp.TimeSeries, ValidDate kv.1) →
      1 ≤ svc.ndays →
      svc.ndays ≤ Int.ofNat resp.TimeSeries.length →
      (∀ kv ∈ resp.TimeSeries, newerCount loc resp.TimeSeries kv < svc.ndays.toNat →
        (NewFromString kv.2.Close).isSome = true) →
      ∃ S, (GetStockInfo svc w).outcome = .ok S ∧ (GetStockInfo svc w).svc.cache = some S ∧
        Int.ofNat S.StockTimeSeries.length = svc.ndays) ∧
    (∀ (LookupEnv : String → Option String) (cfg : configFromEnv),
      parseEnv LookupEnv = .ok cfg → 1 ≤ cfg.ndays) ∧
    (∀ (apiKey symbol : String) (ndays : Int),
      (NewStockTickerService apiKey ndays symbol).ndays = ndays) ∧
    (∀ (svc : StockTickerService) (w : World) (resp : StockInfoResponse) (ts : List Entry),
      ¬ CacheHit svc w →
      w.retrieveStockInfo = .ok resp →
      getSortedTimeSeries w.LoadLocation resp.TimeSeries resp.Metadata.Timezone = (ts, none) →
      svc.ndays = 0 →
      (GetStockInfo svc w).outcome = .panic "decimal division by 0") := by
  refine ⟨?_, parseEnv_ndays, fun _ _ _ => rfl, ?_⟩
  · intro svc w resp loc hmiss hresp hloc hvalid h1 h2 hclose
    have hv : ∀ kv ∈ resp.TimeSeries, (ParseInLocation kv.1 loc).isSome = true :=
      fun kv hkv => (hvalid kv hkv).isSome loc
    have hsorted := getSortedTimeSeries_ok w.LoadLocation resp.TimeSeries
      resp.Metadata.Timezone loc hloc hv
    have hlen : (sortSort (Reverse Less) (resp.TimeSeries.map (datedEntry loc))).length
        = resp.TimeSeries.length := by
      simpa using (sortSort_perm (Reverse Less) (resp.TimeSeries.map (datedEntry loc))).length_eq
    have hwin : ∀ e ∈ (sortSort (Reverse Less) (resp.TimeSeries.map (datedEntry loc))).take
        svc.ndays.toNat, (NewFromString e.Close).isSome = true := by
      intro e he
      obtain ⟨kv, hkv, hcount, rfl⟩ := window_newerCount loc resp.TimeSeries _ e he
      exact hclose kv hkv hcount
    obtain ⟨average, _, href⟩ := refresh_ok svc w resp _ hresp hsorted h1
      (by rw [hlen]; exact h2) hwin
    rw [GetStockInfo_miss svc w hmiss, href]
    refine ⟨_, rfl, rfl, ?_⟩
    simp only [snapshotOf, List.length_map, List.length_take, hlen, Int.ofNat_eq_coe] at h2 ⊢
    omega
  · intro svc w resp ts hmiss hresp hts h0
    rw [GetStockInfo_miss svc w hmiss, refresh_zero svc w resp ts hresp hts h0]

theorem C10_refresh_total_resolved_witness :
    ∃ S, (GetStockInfo (NewStockTickerService "k" 3 "ABC")
        (worldOf fiveDaysOldBad "US/Eastern" 1704500000000000000)).outcome = .ok S ∧
      (GetStockInfo (NewStockTickerService "k" 3 "ABC")
        (worldOf fiveDaysOldBad "US/Eastern" 1704500000000000000)).svc.cache = some S ∧
      Int.ofNat S.StockTimeSeries.length = 3 :=
  C10_refresh_total_resolved.1 (NewStockTickerService "k" 3 "ABC")
    (worldOf fiveDaysOldBad "US/Eastern" 1704500000000000000)
    { Metadata := metadataOf "US/Eastern", TimeSeries := fiveDaysOldBad }
    usEastern
    (by decide) rfl (by decide) (by decide) (by decide) (by decide) (by decide)

theorem roundDiv_nonneg (aa bb : Int) (ha : 0 ≤ aa) (hb : 0 < bb) :
    roundDiv aa bb false = ⌊(aa : ℚ) / bb + 1 / 2⌋ := by
  have hq := Int.ediv_add_emod aa bb
  have hr0 := Int.emod_nonneg aa (ne_of_gt hb)
  have hr1 := Int.emod_lt_of_pos aa hb
  have hbq : (0 : ℚ) < bb := by exact_mod_cast hb
  have haq : (aa : ℚ) = bb * (aa / bb : Int) + (aa % bb : Int) := by exact_mod_cast hq.symm
  unfold roundDiv
  rw [Int.tdiv_eq_ediv ha (le_of_lt hb), Int.tmod_eq_emod ha (le_of_lt hb)]
  have habs : Int.ofNat (aa % bb).natAbs = aa % bb := by
    simp only [Int.ofNat_eq_coe]
    omega
  rw [habs]
  simp only [Bool.false_eq_true, if_false]
  symm
  split_ifs with h
  · rw [Int.floor_eq_iff]
    have h' : ((aa % bb : Int) : ℚ) * 2 < bb := by exact_mod_cast h
    have h0 : (0 : ℚ) ≤ ((aa % bb : Int) : ℚ) := by exact_mod_cast hr0
    constructor
    · rw [haq, add_div, mul_div_cancel_left₀ _ (ne_of_gt hbq)]
      have : (0 : ℚ) ≤ ((aa % bb : Int) : ℚ) / bb := div_nonneg h0 (le_of_lt hbq)
      linarith
    · rw [haq, add_div, mul_div_cancel_left₀ _ (ne_of_gt hbq)]
      have : ((aa % bb : Int) : ℚ) / bb < 1 / 2 := by
        rw [div_lt_iff₀ hbq]
        linarith
      linarith
  · rw [Int.floor_eq_iff]
    have h' : (bb : ℚ) ≤ ((aa % bb : Int) : ℚ) * 2 := by exact_mod_cast (not_lt.mp h)
    have h1 : ((aa % bb : Int) : ℚ) < bb := by exact_mod_cast hr1
    constructor
    · rw [haq, add_div, mul_div_cancel_left₀ _ (ne_of_gt hbq)]
      have : (1 : ℚ) / 2 ≤ ((aa % bb : Int) : ℚ) / bb := by
        rw [le_div_iff₀ hbq]
        linarith
      push_cast
      linarith
    · rw [haq, add_div, mul_div_cancel_left₀ _ (ne_of_gt hbq)]
      have : ((aa % bb : Int) : ℚ) / bb < 1 := by
        rw [div_lt_iff₀ hbq]
        linarith
      push_cast
      linarith

theorem roundDiv_neg (aa bb : Int) :
    roundDiv (-aa) bb true = - roundDiv aa bb false := by
  unfold roundDiv
  have e1 : (-aa).tmod bb = -(aa.tmod bb) := by
    have h1 := Int.tmod_add_tdiv (-aa) bb
    have h2 := Int.tmod_add_tdiv aa bb
    rw [Int.neg_tdiv] at h1
    have : bb * -(aa.tdiv bb) = -(bb * aa.tdiv bb) := by ring
    omega
  rw [e1, Int.neg_tdiv, Int.natAbs_neg]
  simp only [Bool.false_eq_true, if_false, if_true, Int.ofNat_eq_coe]
  split_ifs <;> omega

theorem roundDiv_eq (aa bb : Int) (hb : 0 < bb) :
    roundDiv aa bb (decide (aa.sign * bb.sign < 0)) = roundHalfUp ((aa : ℚ) / bb) := by
  have hbq : (0 : ℚ) < bb := by exact_mod_cast hb
  have hsb : bb.sign = 1 := Int.sign_eq_one_of_pos hb
  rcases lt_or_le aa 0 with ha | ha
  · have hs : aa.sign = -1 := Int.sign_eq_neg_one_of_neg ha
    have hd : decide (aa.sign * bb.sign < 0) = true := by rw [hs, hsb]; decide
    have hneg : ¬ (0 : ℚ) ≤ (aa : ℚ) / bb := by
      rw [not_le]
      exact div_neg_of_neg_of_pos (by exact_mod_cast ha) hbq
    rw [hd, roundHalfUp, if_neg hneg]
    have := roundDiv_neg (-aa) bb
    rw [neg_neg] at this
    rw [this, roundDiv_nonneg (-aa) bb (by omega) hb]
    push_cast
    rw [neg_div]
  · have hd : decide (aa.sign * bb.sign < 0) = false := by
      rw [hsb, mul_one, decide_eq_false_iff_not, not_lt]
      exact Int.sign_nonneg.mpr ha
    have hpos : (0 : ℚ) ≤ (aa : ℚ) / bb := div_nonneg (by exact_mod_cast ha) (le_of_lt hbq)
    rw [hd, roundHalfUp, if_pos hpos, roundDiv_nonneg aa bb ha hb]

theorem wrapInt32_id (x : Int) (h1 : MinInt32 ≤ x) (h2 : x ≤ MaxInt32) : wrapInt32 x = x := by
  unfold wrapInt32
  unfold MinInt32 at h1
  unfold MaxInt32 at h2
  omega

theorem Cmp_neg_iff (a b : Decimal) (h : a.exp = b.exp) : a.Cmp b < 0 ↔ a.value < b.value := by
  unfold Decimal.Cmp RescalePair
  rw [if_pos h]
  simp only
  split_ifs <;> simp_all

theorem Cmp_neg_iff_of_lt (a b : Decimal) (h : a.exp < b.exp) :
    a.Cmp b < 0 ↔ a.value < b.value * 10 ^ (b.exp - a.exp).toNat := by
  have hne : a.exp ≠ b.exp := ne_of_lt h
  have hmin : min a.exp b.exp = a.exp := min_eq_left (le_of_lt h)
  have hnat : (a.exp - b.exp).natAbs = (b.exp - a.exp).toNat := by omega
  unfold Decimal.Cmp RescalePair
  rw [if_neg hne]
  simp only [hmin, ne_eq, not_true_eq_false, if_false, Decimal.rescale, if_neg (Ne.symm hne),
    if_neg (not_lt.mpr (le_of_lt h)), hnat]
  split_ifs <;> simp_all

theorem Sub_same_exp (a b : Decimal) (h : a.exp = b.exp) :
    a.Sub b = { value := a.value - b.value, exp := a.exp } := by
  unfold Decimal.Sub RescalePair
  rw [if_pos h]

theorem Add_same_exp (a b : Decimal) (h : a.exp = b.exp) :
    a.Add b = { value := a.value + b.value, exp := a.exp } := by
  unfold Decimal.Add RescalePair
  rw [if_pos h]

theorem DivRound_eq_roundDiv (d : Decimal) (n : Int) (hn : 1 ≤ n) (h1 : MinInt32 ≤ d.exp)
    (h2 : d.exp ≤ 0) :
    d.DivRound (NewFromInt n) 2 = some
      { value :=
          if d.exp + 2 < 0 then
            roundDiv d.value (n * 10 ^ (-(d.exp + 2)).toNat) (decide (d.value.sign * n.sign < 0))
          else
            roundDiv (d.value * 10 ^ (d.exp + 2).toNat) n (decide (d.value.sign * n.sign < 0)),
        exp := -2 } := by
  have hmin : MinInt32 = -2147483648 := rfl
  have hmax : MaxInt32 = 2147483647 := rfl
  have w1 : wrapInt32 (d.exp - 0) = d.exp := by
    rw [wrapInt32_id _ (by omega) (by omega)]
    omega
  have w2 : wrapInt32 (d.exp - -2) = d.exp + 2 := by
    rw [wrapInt32_id _ (by omega) (by omega)]
    omega
  have w3 : wrapInt32 (-2 + 0) = -2 := by decide
  have w4 : wrapInt32 (-2 + 2) = 0 := by decide
  have hn0 : n ≠ 0 := by omega
  have habs : Int.ofNat n.natAbs = n := by
    simp only [Int.ofNat_eq_coe]
    omega
  unfold Decimal.DivRound Decimal.QuoRem
  simp only [NewFromInt, if_neg hn0, w1, w2]
  rw [if_neg (by omega)]
  by_cases he : d.exp + 2 < 0
  · rw [if_pos he, if_pos he]
    simp only
    have w5 : wrapInt32 (d.exp + 2) = d.exp + 2 := wrapInt32_id _ (by omega) (by omega)
    have hk : (0 - (d.exp + 2)).toNat = (-(d.exp + 2)).toNat := by
      congr 1
      omega
    have hc := Cmp_neg_iff_of_lt
      { value := Int.ofNat (d.value.tmod (n * 10 ^ (-(d.exp + 2)).toNat)).natAbs * 2,
        exp := d.exp + 2 }
      (Decimal.Abs { value := n, exp := 0 }) (by simpa [Decimal.Abs] using he)
    simp only [Decimal.Abs, habs, hk] at hc
    simp only [w5, Decimal.Abs, habs, hc, New, Sub_same_exp, Add_same_exp, roundDiv]
    split_ifs <;> simp_all
    all_goals linarith
  · rw [if_neg he, if_neg he]
    have hc := Cmp_neg_iff
      { value := Int.ofNat ((d.value * 10 ^ (d.exp + 2).toNat).tmod n).natAbs * 2, exp := 0 }
      (Decimal.Abs { value := n, exp := 0 }) (by simp [Decimal.Abs])
    simp only [Decimal.Abs, habs] at hc
    simp only [w3, w4, Decimal.Abs, habs, hc, New, Sub_same_exp, Add_same_exp, roundDiv]
    split_ifs <;> simp_all
    all_goals linarith

theorem toRat_scale (d : Decimal) : d.toRat * 100 = (d.value : ℚ) * (10 : ℚ) ^ (d.exp + 2) := by
  unfold Decimal.toRat
  rw [zpow_add₀ (by norm_num : (10 : ℚ) ≠ 0)]
  norm_num
  ring

theorem DivRound_value (d : Decimal) (n : Int) (hn : 1 ≤ n) (h1 : MinInt32 ≤ d.exp)
    (h2 : d.exp ≤ 0) :
    d.DivRound (NewFromInt n) 2
      = some { value := roundHalfUp (d.toRat * 100 / n), exp := -2 } := by
  rw [DivRound_eq_roundDiv d n hn h1 h2]
  have hns : n.sign = 1 := Int.sign_eq_one_of_pos (by omega)
  have hnq : (0 : ℚ) < n := by exact_mod_cast (show (0 : Int) < n by omega)
  congr 2
  by_cases he : d.exp + 2 < 0
  · rw [if_pos he]
    have hpow : (0 : Int) < 10 ^ (-(d.exp + 2)).toNat := by positivity
    have hbb : 0 < n * 10 ^ (-(d.exp + 2)).toNat := Int.mul_pos (by omega) hpow
    have hs : (n * 10 ^ (-(d.exp + 2)).toNat).sign = n.sign := by
      rw [hns]
      exact Int.sign_eq_one_of_pos hbb
    rw [← hs, roundDiv_eq _ _ hbb, toRat_scale]
    congr 1
    have hz : ((10 : ℚ) ^ (-(d.exp + 2)).toNat) = (10 : ℚ) ^ (-(d.exp + 2)) := by
      rw [← zpow_natCast, Int.toNat_of_nonneg (by omega)]
    push_cast
    rw [hz, zpow_neg]
    field_simp
  · rw [if_neg he]
    have hpow : (0 : Int) < 10 ^ (d.exp + 2).toNat := by positivity
    have hs : (d.value * 10 ^ (d.exp + 2).toNat).sign = d.value.sign := by
      rw [Int.sign_mul, Int.sign_eq_one_of_pos hpow, mul_one]
    have hn1 : (0 : Int) < n := by omega
    rw [← hs, roundDiv_eq _ _ hn1, toRat_scale]
    congr 1
    have hz : ((10 : ℚ) ^ (d.exp + 2).toNat) = (10 : ℚ) ^ (d.exp + 2) := by
      rw [← zpow_natCast, Int.toNat_of_nonneg (by omega)]
    push_cast
    rw [hz]

theorem rescale_toRat (d : Decimal) (exp : Int) (h : exp ≤ d.exp) :
    (d.rescale exp).toRat = d.toRat ∧ (d.rescale exp).exp = exp := by
  unfold Decimal.rescale
  by_cases he : d.exp = exp
  · rw [if_pos he]
    exact ⟨rfl, he⟩
  · rw [if_neg he]
    simp only
    rw [if_neg (by omega)]
    refine ⟨?_, rfl⟩
    unfold Decimal.toRat
    simp only
    have hz : ((10 : ℚ) ^ (exp - d.exp).natAbs) = (10 : ℚ) ^ (d.exp - exp) := by
      rw [← zpow_natCast]
      congr 1
      omega
    push_cast
    rw [hz, mul_assoc, ← zpow_add₀ (by norm_num : (10 : ℚ) ≠ 0)]
    congr 2
    omega

theorem Add_toRat (a b : Decimal) :
    (a.Add b).toRat = a.toRat + b.toRat ∧ (a.Add b).exp = min a.exp b.exp := by
  unfold Decimal.Add RescalePair
  by_cases he : a.exp = b.exp
  · rw [if_pos he]
    simp only [Decimal.toRat, he, min_self]
    refine ⟨?_, trivial⟩
    push_cast
    ring
  · rw [if_neg he]
    simp only
    by_cases hm : min a.exp b.exp ≠ a.exp
    · rw [if_pos hm]
      have hle : min a.exp b.exp ≤ a.exp := min_le_left _ _
      have hb : min a.exp b.exp = b.exp := by omega
      rw [hb] at hle ⊢
      obtain ⟨r1, r2⟩ := rescale_toRat a b.exp hle
      refine ⟨?_, r2⟩
      rw [← r1]
      simp only [Decimal.toRat, r2]
      push_cast
      ring
    · rw [if_neg hm]
      have hm' : min a.exp b.exp = a.exp := not_not.mp hm
      have hle : min a.exp b.exp ≤ b.exp := min_le_right _ _
      rw [hm'] at hle ⊢
      obtain ⟨r1, r2⟩ := rescale_toRat b a.exp hle
      refine ⟨?_, rfl⟩
      rw [← r1]
      simp only [Decimal.toRat, r2]
      push_cast
      ring

theorem NewFromString_exp (s : String) (d : Decimal) (h : NewFromString s = some d) :
    MinInt32 ≤ d.exp ∧ d.exp ≤ MaxInt32 := by
  unfold NewFromString at h
  simp only at h
  repeat' split at h
  all_goals cases h
  all_goals
    rename_i hr
    simp only [not_or, not_lt, gt_iff_lt] at hr
    exact ⟨hr.1, hr.2⟩

theorem closeOf_exp (e : Entry) : MinInt32 ≤ (closeOf e).exp := by
  unfold closeOf
  cases h : NewFromString e.Close with
  | none => decide
  | some d => exact (NewFromString_exp _ d h).1

theorem foldl_Add_toRat (l : List Entry) (total : Decimal) (h1 : MinInt32 ≤ total.exp)
    (h2 : total.exp ≤ 0) :
    (l.foldl (fun total e => total.Add (closeOf e)) total).toRat
        = total.toRat + (l.map (fun e => (closeOf e).toRat)).sum ∧
      MinInt32 ≤ (l.foldl (fun total e => total.Add (closeOf e)) total).exp ∧
      (l.foldl (fun total e => total.Add (closeOf e)) total).exp ≤ 0 := by
  induction l generalizing total with
  | nil => simpa using ⟨h1, h2⟩
  | cons e rest ih =>
    obtain ⟨a1, a2⟩ := Add_toRat total (closeOf e)
    have hc := closeOf_exp e
    obtain ⟨i1, i2, i3⟩ := ih (total.Add (closeOf e)) (by rw [a2]; exact le_min h1 hc)
      (by rw [a2]; exact le_trans (min_le_left _ _) h2)
    simp only [List.foldl_cons, List.map_cons, List.sum_cons]
    refine ⟨?_, i2, i3⟩
    rw [i1, a1]
    ring

theorem totalOf_toRat (window : List Entry) :
    (totalOf window).toRat = (window.map (fun e => (closeOf e).toRat)).sum ∧
      MinInt32 ≤ (totalOf window).exp ∧ (totalOf window).exp ≤ 0 := by
  have h := foldl_Add_toRat window Decimal.zero (by decide) (by decide)
  have hz : Decimal.zero.toRat = 0 := by simp [Decimal.toRat, Decimal.zero]
  rw [hz, zero_add] at h
  exact h

/-- C1: on a refresh that succeeds with window size N ≥ 1, the snapshot has N
entries, each with a close price that is a decimal string, and
`AverageClosingPrice` is the decimal with two places whose coefficient is the
exact sum of those N close prices, divided by N, times 100, rounded half up:
the average rounded to 2 decimal places in exact arithmetic. -/
theorem C1_average_exact (svc : StockTickerService) (w : World) (S : StockTickerResponse)
    (hrefresh : (GetStockInfo svc w).upstreamCalls = 1)
    (hok : (GetStockInfo svc w).outcome = .ok S)
    (hN : 1 ≤ svc.ndays) :
    Int.ofNat S.StockTimeSeries.length = svc.ndays ∧
    (∀ r ∈ S.StockTimeSeries, (NewFromString r.Close).isSome = true) ∧
    S.AverageClosingPrice
      = { value := roundHalfUp
            (100 * ((S.StockTimeSeries.map (fun r => closeValue r.Close)).sum / svc.ndays)),
          exp := -2 } := by
  have hmiss : ¬ CacheHit svc w := by
    intro hhit
    rw [(upstreamCalls_eq_zero_iff svc w).mpr hhit] at hrefresh
    exact absurd hrefresh (by decide)
  rw [GetStockInfo_miss svc w hmiss] at hok
  obtain ⟨resp, ts, _, _, h0, hlen, hall, havg, hS⟩ := refresh_ok_inv svc w S hok
  have hseries : S.StockTimeSeries = (ts.take svc.ndays.toNat).map Entry.toResponseEntry := by
    rw [hS]
    rfl
  obtain ⟨t1, t2, t3⟩ := totalOf_toRat (ts.take svc.ndays.toNat)
  rw [DivRound_value _ svc.ndays hN t2 t3] at havg
  have hsum : (S.StockTimeSeries.map (fun r => closeValue r.Close)).sum
      = (totalOf (ts.take svc.ndays.toNat)).toRat := by
    rw [t1, hseries, List.map_map]
    rfl
  refine ⟨?_, ?_, ?_⟩
  · rw [hseries, List.length_map, List.length_take]
    simp only [Int.ofNat_eq_coe] at hlen ⊢
    omega
  · intro r hr
    rw [hseries] at hr
    obtain ⟨e, he, rfl⟩ := List.mem_map.mp hr
    exact hall e he
  · rw [← Option.some.inj havg, hsum]
    congr 2
    ring

theorem C1_average_exact_witness :
    ((GetStockInfo (NewStockTickerService "k" 3 "ABC")
        (worldOf threeDays "US/Eastern" 1704500000000000000)).outcome = .ok threeSnapshot ∧
      roundHalfUp (100 * ((threeSnapshot.StockTimeSeries.map (fun r => closeValue r.Close)).sum
        / (3 : Int))) = 2000) ∧
    ((GetStockInfo (NewStockTickerService "k" 2 "ABC")
        (worldOf twoDays "US/Eastern" 1704500000000000000)).outcome = .ok twoSnapshot ∧
      roundHalfUp (100 * ((twoSnapshot.StockTimeSeries.map (fun r => closeValue r.Close)).sum
        / (2 : Int))) = 1002) :=
  ⟨⟨by decide,
    (congrArg Decimal.value (C1_average_exact (NewStockTickerService "k" 3 "ABC")
      (worldOf threeDays "US/Eastern" 1704500000000000000) threeSnapshot (by decide) (by decide)
      (by decide)).2.2).symm⟩,
   ⟨by decide,
    (congrArg Decimal.value (C1_average_exact (NewStockTickerService "k" 2 "ABC")
      (worldOf twoDays "US/Eastern" 1704500000000000000) twoSnapshot (by decide) (by decide)
      (by decide)).2.2).symm⟩⟩

end Stockrock
